import Mathlib

/-!
Verification of the RiskGuard risk-enforcement state machine.

This file gives a shallow embedding of the enforcement logic of the
repository and proves properties about it:

* `enforce_aggregate_risk` embeds `RiskguardV1.1/limits/limits.py`
  (function `enforce_aggregate_risk`): baseline-ticket tracking, attempt
  counting, stale-attempt decay, the risk block flag and kill-switch arming.
* `enforce_news_window_v1` and `enforce_news_window_v2` embed
  `RiskGuardv0.0.2/news/news_windows0.1.py` and `news_windows0.2.py`
  (function `enforce_news_window`), with an explicit action trace recording
  every close attempt and every kill-switch arm call in program order.
* `save_state_ops` embeds the file-system operations performed by
  `_save_state` in `limits.py`, to reason about crash atomicity.

Timestamps are modelled as integer seconds (UTC); machine floats are
modelled as rationals.  The kill switch itself (`limits/kill_switch.py`) is
not among the sources; its operations are modelled from the spec, as noted
on their doc comments.
-/

/-- An open position as seen by the aggregate-risk enforcer: the fields of
`snap["positions"]` that the enforcer reads (`ticket`, `symbol`; `type` and
`volume` are passed through to the close call and do not affect control
flow). -/
structure Position where
  ticket : Nat
  symbol : String
deriving DecidableEq, Repr

/-- A trading-engine snapshot: `snap["exposure"]["total_risk_pct"]` and
`snap["positions"]`. -/
structure Snapshot where
  total_risk_pct : Rat
  positions : List Position
deriving DecidableEq, Repr

/-- The persisted enforcement state of `limits.py` (file
`.riskguard_limits.json`).  `baseline_tickets` is `none` when the key is
absent, mirroring `st.get("baseline_tickets")`. -/
structure LimitsState where
  baseline_tickets : Option (List Nat)
  block_attempts : Nat
  last_attempt_at : Option Int
  risk_block_active : Bool
deriving DecidableEq, Repr

/-- Modelled from the spec: `limits/kill_switch.py` is not among the source
files.  Per spec section 4.2 the kill-switch state is
`until: Option<Timestamp>` (field named `untilTs` here). -/
structure KillSwitch where
  untilTs : Option Int
deriving DecidableEq, Repr

/-- Modelled from the spec: `kill_status()["active"]` is true iff `until`
is present and strictly greater than now (spec section 4.2). -/
def kill_active (ks : KillSwitch) (now : Int) : Bool :=
  match ks.untilTs with
  | none => false
  | some u => decide (now < u)

/-- Modelled from the spec: `set_kill_until(t)` sets
`until = max(current until, t)` (spec section 4.2, `arm_until`). -/
def set_kill_until (ks : KillSwitch) (t : Int) : KillSwitch :=
  match ks.untilTs with
  | none => ⟨some t⟩
  | some u => ⟨some (max u t)⟩

/-- The report dictionary built by `enforce_aggregate_risk` (ticket lists
stand for the per-ticket dictionaries appended to `closed` / `failed`). -/
structure LimitsReport where
  baseline_tickets : List Nat
  new_tickets_detected : List Nat
  closed : List Nat
  failed : List Nat
  attempts_before : Nat
  attempts_after : Nat
  risk_block_active_before : Bool
  risk_block_active_after : Bool
  kill_switch_active_before : Bool
  kill_switch_active_after : Bool
  kill_switch_until_before : Option Int
  kill_switch_until_after : Option Int
  kill_switch_armed_now : Bool
deriving DecidableEq, Repr

/-- Result of one enforcement tick: the persisted state, the kill-switch
state, and the returned report. -/
structure LimitsResult where
  st : LimitsState
  ks : KillSwitch
  report : LimitsReport
deriving DecidableEq, Repr

/-- The current ticket set `{int(p["ticket"]) for p in snap["positions"]}`,
as a duplicate-free list. -/
def ticketsCurrent (snap : Snapshot) : List Nat :=
  (snap.positions.map (fun p => p.ticket)).dedup

/-- `sorted(list(tickets_current))`. -/
def sortedTickets (snap : Snapshot) : List Nat :=
  List.insertionSort (· ≤ ·) (ticketsCurrent snap)

/-- `new_tickets = [t for t in tickets_current if t not in baseline_set]`. -/
def newTicketsOf (baseline : List Nat) (snap : Snapshot) : List Nat :=
  (ticketsCurrent snap).filter (fun t => decide (t ∉ baseline))

/-- The stale-attempt decay condition of `limits.py` lines 83-85:
`attempts > 0 and last_attempt_at is not None and
idle_sec >= max(1, int(block_minutes)) * 60`. -/
def decayFires (st : LimitsState) (now : Int) (block_minutes : Nat) : Bool :=
  decide (0 < st.block_attempts) &&
    (match st.last_attempt_at with
     | none => false
     | some t => decide ((max 1 (block_minutes : Int)) * 60 ≤ now - t))

/-- The numeric epsilon `1e-9` used for the threshold comparison. -/
def riskEps : Rat := 1 / 1000000000

/-- The comparison `total <= threshold_pct + 1e-9` of `limits.py` line 124,
written gcd-free by cross multiplication so that it evaluates by kernel
reduction; `riskWithinLimit_iff` below proves it equal to the direct
rational comparison. -/
def riskWithinLimit (total threshold : Rat) : Bool :=
  decide (total.num * ((threshold.den : Int) * 1000000000) ≤
    (threshold.num * 1000000000 + (threshold.den : Int)) * total.den)

theorem riskWithinLimit_iff (total threshold : Rat) :
    riskWithinLimit total threshold = true ↔ total ≤ threshold + riskEps := by
  have hT : ((total.num : ℚ)) / (total.den : ℚ) = total := Rat.num_div_den total
  have hS : ((threshold.num : ℚ)) / (threshold.den : ℚ) = threshold := Rat.num_div_den threshold
  have hdT : (0 : ℚ) < (total.den : ℚ) := by exact_mod_cast total.den_pos
  have hdS : (0 : ℚ) < (threshold.den : ℚ) := by exact_mod_cast threshold.den_pos
  have h9 : (0 : ℚ) < 1000000000 := by norm_num
  rw [riskWithinLimit, decide_eq_true_iff, riskEps]
  conv_rhs => rw [← hT, ← hS, div_add_div _ _ (ne_of_gt hdS) (ne_of_gt h9),
    div_le_div_iff₀ hdT (by positivity), mul_one]
  norm_cast

/-- Shallow embedding of `enforce_aggregate_risk` from
`RiskguardV1.1/limits/limits.py`.  Inputs beyond the snapshot and persisted
state: `now` is `_now_utc()`, `closeOk t` is the `ok` component returned by
`close_position_full` for ticket `t`, and `armFails` says whether the
`set_kill_until` call inside the `try` block raises (the `except` branch of
lines 179-181). -/
def enforce_aggregate_risk (snap : Snapshot) (st0 : LimitsState) (ks : KillSwitch)
    (now : Int) (threshold_pct : Rat) (max_block_attempts : Nat) (block_minutes : Nat)
    (closeOk : Nat → Bool) (armFails : Bool) : LimitsResult :=
  let baseline := st0.baseline_tickets.getD []
  let kill_active_before := kill_active ks now
  let risk_block_active := st0.risk_block_active || kill_active_before
  let decay := decayFires st0 now block_minutes
  let attempts := if decay then 0 else st0.block_attempts
  let st1 := if decay then { st0 with block_attempts := 0, last_attempt_at := none } else st0
  let report0 : LimitsReport :=
    { baseline_tickets := baseline
      new_tickets_detected := []
      closed := []
      failed := []
      attempts_before := attempts
      attempts_after := attempts
      risk_block_active_before := risk_block_active
      risk_block_active_after := risk_block_active
      kill_switch_active_before := kill_active_before
      kill_switch_active_after := kill_active_before
      kill_switch_until_before := ks.untilTs
      kill_switch_until_after := ks.untilTs
      kill_switch_armed_now := false }
  if baseline.isEmpty then
    -- first run: create the baseline and close nothing (lines 111-120)
    let sortedT := sortedTickets snap
    ⟨{ st1 with
        baseline_tickets := some sortedT,
        block_attempts := attempts,
        risk_block_active := risk_block_active },
      ks,
      { report0 with
          baseline_tickets := sortedT,
          attempts_after := attempts,
          risk_block_active_after := risk_block_active }⟩
  else if riskWithinLimit snap.total_risk_pct threshold_pct then
    -- aggregate risk OK: refresh baseline, maybe clean reset (lines 122-137)
    let reset := risk_block_active && !kill_active_before
    let attempts2 := if reset then 0 else attempts
    let st2 := if reset then { st1 with last_attempt_at := none } else st1
    let rba2 := if reset then false else risk_block_active
    let sortedT := sortedTickets snap
    ⟨{ st2 with
        baseline_tickets := some sortedT,
        block_attempts := attempts2,
        risk_block_active := rba2 },
      ks,
      { report0 with
          baseline_tickets := sortedT,
          attempts_after := attempts2,
          risk_block_active_after := rba2 }⟩
  else
    -- risk exceeded: close only NEW tickets (lines 139-198)
    let new_tickets := newTicketsOf baseline snap
    let toClose := snap.positions.filter (fun p => decide (p.ticket ∈ new_tickets))
    let closed := (toClose.filter (fun p => closeOk p.ticket)).map (fun p => p.ticket)
    let failed := (toClose.filter (fun p => !closeOk p.ticket)).map (fun p => p.ticket)
    let hasNew := !new_tickets.isEmpty
    let attempts3 := if hasNew then attempts + new_tickets.length else attempts
    let st2 := if hasNew then { st1 with last_attempt_at := some now } else st1
    let reach := decide (max_block_attempts ≤ attempts3)
    let armNow := reach && !kill_active_before && !armFails
    let ks2 := if armNow then set_kill_until ks (now + 60 * max 1 (block_minutes : Int)) else ks
    let kact_after := kill_active ks2 now
    let rba4 := kact_after || (reach || risk_block_active)
    ⟨{ st2 with
        block_attempts := attempts3,
        risk_block_active := rba4 },
      ks2,
      { report0 with
          new_tickets_detected := new_tickets,
          closed := closed,
          failed := failed,
          attempts_after := attempts3,
          risk_block_active_after := rba4,
          kill_switch_armed_now := armNow,
          kill_switch_active_after := kact_after,
          kill_switch_until_after := ks2.untilTs }⟩

/-- `enforce_aggregate_risk` including line 67, `snap = reader.snapshot()`,
which is not inside any `try`: a snapshot failure propagates out of the
function before any state is touched. -/
def enforce_aggregate_risk_checked (snapE : Except Unit Snapshot) (st0 : LimitsState)
    (ks : KillSwitch) (now : Int) (threshold_pct : Rat) (max_block_attempts : Nat)
    (block_minutes : Nat) (closeOk : Nat → Bool) (armFails : Bool) :
    Except Unit LimitsResult :=
  match snapE with
  | .error e => .error e
  | .ok snap =>
      .ok (enforce_aggregate_risk snap st0 ks now threshold_pct max_block_attempts
        block_minutes closeOk armFails)

/-- One observation tick: the wall-clock time of the tick and the snapshot
the engine returns at that time. -/
structure Tick where
  now : Int
  snap : Snapshot
deriving DecidableEq, Repr

/-- Run `enforce_aggregate_risk` over a sequence of ticks (as the
`limits_watch.py` loop does), threading the persisted state and the
kill-switch state, and collecting the per-tick reports. -/
def runTicksTrace (thr : Rat) (maxAtt blockMin : Nat) (closeOk : Nat → Bool) :
    LimitsState → KillSwitch → List Tick → (LimitsState × KillSwitch) × List LimitsReport
  | st, ks, [] => ((st, ks), [])
  | st, ks, tk :: rest =>
      let r := enforce_aggregate_risk tk.snap st ks tk.now thr maxAtt blockMin closeOk false
      let tail := runTicksTrace thr maxAtt blockMin closeOk r.st r.ks rest
      (tail.1, r.report :: tail.2)

/-- Number of new-ticket violations a tick contributes against baseline `B`. -/
def tickViolations (B : List Nat) (tk : Tick) : Nat :=
  (newTicketsOf B tk.snap).length

example :
    (enforce_aggregate_risk ⟨3, [⟨1, "EURUSD"⟩, ⟨2, "USDJPY"⟩]⟩
      ⟨none, 0, none, false⟩ ⟨none⟩ 0 5 3 60 (fun _ => true) false).st.baseline_tickets
      = some [1, 2] := by decide

example :
    (enforce_aggregate_risk ⟨7, [⟨1, "EURUSD"⟩, ⟨100, "USDJPY"⟩]⟩
      ⟨some [1], 0, none, false⟩ ⟨none⟩ 0 5 3 60 (fun _ => true) false).report.closed
      = [100] := by decide

/-- A position as read by `enforce_news_window`: `ticket`, `symbol` and
`open_time` (which the code treats as possibly absent). -/
structure NewsPosition where
  ticket : Int
  symbol : String
  open_time : Option Int
deriving DecidableEq, Repr

/-- A cached calendar event: `currency` and `ts_utc`. -/
structure NewsEvent where
  currency : String
  ts_utc : Int
deriving DecidableEq, Repr

/-- The part of the snapshot the news enforcer reads: `snap["positions"]`. -/
structure NewsSnapshot where
  positions : List NewsPosition
deriving DecidableEq, Repr

/-- Embedding of `map_symbol_currencies` (identical in both news files):
six-letter alphabetic symbols split 3/3, anything else falls back to the
last three characters (`s[-3:]`).  The string is handled as its character
list so that the definition evaluates by kernel reduction. -/
def map_symbol_currencies (symbol : String) : List String :=
  let s := symbol.toList.map Char.toUpper
  if 6 ≤ s.length ∧ (s.take 3).all Char.isAlpha ∧ ((s.drop 3).take 3).all Char.isAlpha then
    [String.mk (s.take 3), String.mk ((s.drop 3).take 3)]
  else
    [String.mk (s.drop (s.length - 3))]

/-- Embedding of `find_events`: events whose currency is in the given set
and whose timestamp lies within plus or minus `window_min` minutes of now. -/
def find_events (df : List NewsEvent) (currencies : List String) (now_utc : Int)
    (window_min : Int) : List NewsEvent :=
  df.filter (fun r => decide (r.currency ∈ currencies)
    && decide (now_utc - window_min * 60 ≤ r.ts_utc)
    && decide (r.ts_utc ≤ now_utc + window_min * 60))

/-- Python `max(m["ts_utc"] for m in matches)` over a nonempty list (the
`[]` case is never reached behind the nonemptiness guard). -/
def tsMax : List NewsEvent → Int
  | [] => 0
  | e :: es => es.foldl (fun m r => max m r.ts_utc) e.ts_utc

/-- An externally visible action of one news-enforcement tick, in program
order: a `close_position_full` attempt or a `set_kill_until` call. -/
inductive NewsAction where
  | closeAttempt (ticket : Int)
  | armKill (untilTs : Int)
deriving DecidableEq, Repr

/-- The report dictionary returned by `enforce_news_window` (ticket lists
stand for the appended per-ticket dictionaries). -/
structure NewsReport where
  affected : List Int
  closed : List Int
  failed : List Int
  kill_switch_until : Option Int
deriving DecidableEq, Repr

/-- Loop accumulator for the v0.2 news enforcer: the report lists, the
running `max_until`, and the action trace. -/
structure NewsAcc where
  closed : List Int
  failed : List Int
  affected : List Int
  max_until : Option Int
  trace : List NewsAction
deriving DecidableEq, Repr

/-- The `max_until` update of `news_windows0.2.py` lines 203-204:
`if (max_until is None) or (this_until > max_until): max_until = this_until`. -/
def maxUntilUpdate (acc : Option Int) (thisUntil : Int) : Option Int :=
  match acc with
  | none => some thisUntil
  | some m => if m < thisUntil then some thisUntil else some m

/-- One iteration of the position loop of `enforce_news_window` in
`news_windows0.2.py` (lines 136-216): skip invalid/old/unmatched positions,
otherwise attempt the close, record it, and fold this position's
`this_until` into `max_until`.  No kill-switch call happens here. -/
def newsStep (events : List NewsEvent) (window_min recent_s now_utc : Int)
    (closeOk : Int → Bool) (acc : NewsAcc) (pos : NewsPosition) : NewsAcc :=
  if pos.symbol = "" then acc
  else
    match pos.open_time with
    | none => acc
    | some ot =>
      if recent_s < now_utc - ot then acc
      else
        let eventMatches := find_events events (map_symbol_currencies pos.symbol) now_utc window_min
        if eventMatches.isEmpty then acc
        else
          let ok := closeOk pos.ticket
          let this_until := tsMax eventMatches + window_min * 60
          { closed := if ok then acc.closed ++ [pos.ticket] else acc.closed
            failed := if ok then acc.failed else acc.failed ++ [pos.ticket]
            affected := acc.affected ++ [pos.ticket]
            max_until := maxUntilUpdate acc.max_until this_until
            trace := acc.trace ++ [NewsAction.closeAttempt pos.ticket] }

/-- Shallow embedding of `enforce_news_window` from
`RiskGuardv0.0.2/news/news_windows0.2.py`: a failing snapshot returns the
empty report (lines 119-124); otherwise every position is processed, and
only after the whole batch is the kill switch armed once, to the combined
`max_until` (lines 218-223).  The second component is the trace of close
attempts and arm calls in program order. -/
def enforce_news_window_v2 (snapE : Except Unit NewsSnapshot) (events : List NewsEvent)
    (window_min : Int) (recent_sOpt : Option Int) (now_utc : Int) (closeOk : Int → Bool) :
    NewsReport × List NewsAction :=
  let recent_s := match recent_sOpt with
    | none => window_min * 60
    | some r => r
  match snapE with
  | .error _ => (⟨[], [], [], none⟩, [])
  | .ok snap =>
      let acc := snap.positions.foldl (newsStep events window_min recent_s now_utc closeOk)
        ⟨[], [], [], none, []⟩
      match acc.max_until with
      | some mu =>
          if acc.affected.isEmpty then
            (⟨acc.affected, acc.closed, acc.failed, none⟩, acc.trace)
          else
            (⟨acc.affected, acc.closed, acc.failed, some mu⟩,
              acc.trace ++ [NewsAction.armKill mu])
      | none => (⟨acc.affected, acc.closed, acc.failed, none⟩, acc.trace)

/-- Loop accumulator for the v0.1 news enforcer; `kill_until_field` is the
`report["kill_switch_until"]` value, overwritten on every affected
position. -/
structure NewsAccV1 where
  closed : List Int
  failed : List Int
  affected : List Int
  kill_until_field : Option Int
  trace : List NewsAction
deriving DecidableEq, Repr

/-- One iteration of the position loop of `enforce_news_window` in
`news_windows0.1.py` (lines 123-172): same filtering, but `set_kill_until`
is called inside the loop, once per affected position (line 162), right
after that position's close attempt. -/
def newsStepV1 (events : List NewsEvent) (window_min recent_s now_utc : Int)
    (closeOk : Int → Bool) (acc : NewsAccV1) (pos : NewsPosition) : NewsAccV1 :=
  if pos.symbol = "" then acc
  else
    match pos.open_time with
    | none => acc
    | some ot =>
      if recent_s < now_utc - ot then acc
      else
        let eventMatches := find_events events (map_symbol_currencies pos.symbol) now_utc window_min
        if eventMatches.isEmpty then acc
        else
          let ok := closeOk pos.ticket
          let untilTs := tsMax eventMatches + window_min * 60
          { closed := if ok then acc.closed ++ [pos.ticket] else acc.closed
            failed := if ok then acc.failed else acc.failed ++ [pos.ticket]
            affected := acc.affected ++ [pos.ticket]
            kill_until_field := some untilTs
            trace := acc.trace ++ [NewsAction.closeAttempt pos.ticket,
              NewsAction.armKill untilTs] }

/-- Shallow embedding of `enforce_news_window` from
`RiskGuardv0.0.2/news/news_windows0.1.py`: same skeleton as v0.2 but the
kill switch is armed inside the loop, per affected position; there is no
post-loop arm call. -/
def enforce_news_window_v1 (snapE : Except Unit NewsSnapshot) (events : List NewsEvent)
    (window_min : Int) (recent_sOpt : Option Int) (now_utc : Int) (closeOk : Int → Bool) :
    NewsReport × List NewsAction :=
  let recent_s := match recent_sOpt with
    | none => window_min * 60
    | some r => r
  match snapE with
  | .error _ => (⟨[], [], [], none⟩, [])
  | .ok snap =>
      let acc := snap.positions.foldl (newsStepV1 events window_min recent_s now_utc closeOk)
        ⟨[], [], [], none, []⟩
      (⟨acc.affected, acc.closed, acc.failed, acc.kill_until_field⟩, acc.trace)

example :
    (enforce_news_window_v2 (.ok ⟨[⟨1, "EURUSD", some 990⟩, ⟨2, "USDJPY", some 995⟩]⟩)
      [⟨"USD", 1000⟩] 60 none 1000 (fun _ => true)).2
      = [NewsAction.closeAttempt 1, NewsAction.closeAttempt 2, NewsAction.armKill 4600] := by
  decide

example :
    (enforce_news_window_v1 (.ok ⟨[⟨1, "EURUSD", some 990⟩, ⟨2, "USDJPY", some 995⟩]⟩)
      [⟨"USD", 1000⟩] 60 none 1000 (fun _ => true)).2
      = [NewsAction.closeAttempt 1, NewsAction.armKill 4600,
         NewsAction.closeAttempt 2, NewsAction.armKill 4600] := by
  decide

/-- A file-system operation, at the granularity relevant to crash
atomicity of a state save. -/
inductive FsOp where
  | openTrunc (path : String)
  | writeAll (path : String) (data : String)
  | renameFile (src dst : String)
deriving DecidableEq, Repr

/-- The state-file path of `limits.py` (`STATE_FILE`). -/
def STATE_FILE : String := ".riskguard_limits.json"

/-- The file-system operations performed by `_save_state` in `limits.py`
lines 33-35: `open(STATE_FILE, "w")` truncates the file in place, then
`json.dump` writes the serialized state; there is no temporary file and no
rename. -/
def save_state_ops (payload : String) : List FsOp :=
  [FsOp.openTrunc STATE_FILE, FsOp.writeAll STATE_FILE payload]

/-- Effect of one file-system operation on file contents (modelled as a map
from path to contents; a missing file reads as the empty string). -/
def applyOp (fs : String → String) : FsOp → (String → String)
  | FsOp.openTrunc p => fun q => if q = p then "" else fs q
  | FsOp.writeAll p d => fun q => if q = p then d else fs q
  | FsOp.renameFile s t => fun q => if q = t then fs s else if q = s then "" else fs q

/-- File contents after a crash that interrupts an operation sequence after
its first `k` operations completed. -/
def crashAfter (k : Nat) (ops : List FsOp) (fs : String → String) : String → String :=
  (ops.take k).foldl applyOp fs

/-- Whether an operation writes the target path directly (truncating open
or content write), as opposed to only renaming onto it. -/
def writesDirectly (op : FsOp) (target : String) : Bool :=
  match op with
  | FsOp.openTrunc p => decide (p = target)
  | FsOp.writeAll p _ => decide (p = target)
  | FsOp.renameFile _ _ => false

/-- Whether an operation renames some file onto the target path. -/
def renamesOnto (op : FsOp) (target : String) : Bool :=
  match op with
  | FsOp.renameFile _ t => decide (t = target)
  | _ => false

/-- The write-to-temp-then-rename discipline for a target file: the target
is never written directly, and it is produced by renaming a temporary file
onto it. -/
def followsTempThenRename (ops : List FsOp) (target : String) : Bool :=
  ops.all (fun op => !writesDirectly op target) && ops.any (fun op => renamesOnto op target)

example : followsTempThenRename (save_state_ops "x") STATE_FILE = false := by decide

example : crashAfter 1 (save_state_ops "x") (fun _ => "old") STATE_FILE = "" := by decide

/-- Attempt counter after the stale-attempt decay check. -/
def decayedAttempts (st0 : LimitsState) (now : Int) (block_minutes : Nat) : Nat :=
  if decayFires st0 now block_minutes then 0 else st0.block_attempts

/-- Last-attempt timestamp after the stale-attempt decay check. -/
def decayedLast (st0 : LimitsState) (now : Int) (block_minutes : Nat) : Option Int :=
  if decayFires st0 now block_minutes then none else st0.last_attempt_at

/-- Characterization of the first-run branch of `enforce_aggregate_risk`
(baseline empty or absent, lines 111-120): the baseline is created from the
current tickets, nothing is closed, no violation is recorded and the kill
switch is untouched. -/
theorem enforce_first_run_spec (snap : Snapshot) (st0 : LimitsState) (ks : KillSwitch)
    (now : Int) (thr : Rat) (N D : Nat) (closeOk : Nat → Bool) (armFails : Bool)
    (hbase : st0.baseline_tickets.getD [] = []) :
    (enforce_aggregate_risk snap st0 ks now thr N D closeOk armFails).st =
      { baseline_tickets := some (sortedTickets snap),
        block_attempts := decayedAttempts st0 now D,
        last_attempt_at := decayedLast st0 now D,
        risk_block_active := st0.risk_block_active || kill_active ks now } ∧
    (enforce_aggregate_risk snap st0 ks now thr N D closeOk armFails).ks = ks ∧
    (enforce_aggregate_risk snap st0 ks now thr N D closeOk armFails).report.closed = [] ∧
    (enforce_aggregate_risk snap st0 ks now thr N D closeOk armFails).report.failed = [] ∧
    (enforce_aggregate_risk snap st0 ks now thr N D closeOk
      armFails).report.new_tickets_detected = [] ∧
    (enforce_aggregate_risk snap st0 ks now thr N D closeOk armFails).report.attempts_after =
      decayedAttempts st0 now D ∧
    (enforce_aggregate_risk snap st0 ks now thr N D closeOk
      armFails).report.risk_block_active_after = (st0.risk_block_active || kill_active ks now) := by
  simp only [enforce_aggregate_risk, hbase, List.isEmpty_nil, decayedAttempts, decayedLast]
  by_cases hd : decayFires st0 now D = true
  · simp [hd]
  · simp at hd
    simp [hd]

/-- Characterization of the risk-OK branch of `enforce_aggregate_risk`
(nonempty baseline, total within threshold, lines 122-137): the baseline is
refreshed, nothing is closed, and a clean reset happens exactly when a
block was active while the kill switch is not. -/
theorem enforce_risk_ok_spec (snap : Snapshot) (st0 : LimitsState) (ks : KillSwitch)
    (now : Int) (thr : Rat) (N D : Nat) (closeOk : Nat → Bool) (armFails : Bool)
    (B : List Nat) (hbase : st0.baseline_tickets = some B) (hB : B ≠ [])
    (hrisk : riskWithinLimit snap.total_risk_pct thr = true) :
    (enforce_aggregate_risk snap st0 ks now thr N D closeOk armFails).st =
      { baseline_tickets := some (sortedTickets snap),
        block_attempts :=
          if (st0.risk_block_active || kill_active ks now) && !kill_active ks now then 0
          else decayedAttempts st0 now D,
        last_attempt_at :=
          if (st0.risk_block_active || kill_active ks now) && !kill_active ks now then none
          else decayedLast st0 now D,
        risk_block_active :=
          if (st0.risk_block_active || kill_active ks now) && !kill_active ks now then false
          else (st0.risk_block_active || kill_active ks now) } ∧
    (enforce_aggregate_risk snap st0 ks now thr N D closeOk armFails).ks = ks ∧
    (enforce_aggregate_risk snap st0 ks now thr N D closeOk armFails).report.closed = [] ∧
    (enforce_aggregate_risk snap st0 ks now thr N D closeOk armFails).report.failed = [] ∧
    (enforce_aggregate_risk snap st0 ks now thr N D closeOk
      armFails).report.new_tickets_detected = [] ∧
    (enforce_aggregate_risk snap st0 ks now thr N D closeOk armFails).report.attempts_after =
      (if (st0.risk_block_active || kill_active ks now) && !kill_active ks now then 0
        else decayedAttempts st0 now D) := by
  have hBe : B.isEmpty = false := by
    cases B with
    | nil => exact absurd rfl hB
    | cons a l => rfl
  by_cases hk : kill_active ks now = true <;>
    by_cases hf : st0.risk_block_active = true <;>
      by_cases hd : decayFires st0 now D = true <;>
        simp [enforce_aggregate_risk, hbase, hBe, hrisk, decayedAttempts, decayedLast,
          hk, hf, hd]

/-- Characterization of the violation branch of `enforce_aggregate_risk`
(nonempty baseline, total above threshold plus epsilon, lines 139-198):
only new tickets are closed, attempts grow by the number of new tickets,
the baseline is unchanged, and the kill switch is armed exactly when the
attempt cap is reached while the switch is inactive and the arm call does
not raise. -/
theorem enforce_violation_spec (snap : Snapshot) (st0 : LimitsState) (ks : KillSwitch)
    (now : Int) (thr : Rat) (N D : Nat) (closeOk : Nat → Bool) (armFails : Bool)
    (B : List Nat) (hbase : st0.baseline_tickets = some B) (hB : B ≠ [])
    (hrisk : riskWithinLimit snap.total_risk_pct thr = false) :
    (enforce_aggregate_risk snap st0 ks now thr N D closeOk armFails).st.baseline_tickets
      = some B ∧
    (enforce_aggregate_risk snap st0 ks now thr N D closeOk armFails).st.block_attempts
      = decayedAttempts st0 now D + (newTicketsOf B snap).length ∧
    (enforce_aggregate_risk snap st0 ks now thr N D closeOk armFails).st.last_attempt_at
      = (if (newTicketsOf B snap).isEmpty then decayedLast st0 now D else some now) ∧
    (enforce_aggregate_risk snap st0 ks now thr N D closeOk armFails).ks
      = (if decide (N ≤ decayedAttempts st0 now D + (newTicketsOf B snap).length)
            && !kill_active ks now && !armFails
          then set_kill_until ks (now + 60 * max 1 (D : Int)) else ks) ∧
    (enforce_aggregate_risk snap st0 ks now thr N D closeOk armFails).st.risk_block_active
      = (kill_active (enforce_aggregate_risk snap st0 ks now thr N D closeOk armFails).ks now
          || (decide (N ≤ decayedAttempts st0 now D + (newTicketsOf B snap).length)
            || (st0.risk_block_active || kill_active ks now))) ∧
    (enforce_aggregate_risk snap st0 ks now thr N D closeOk
      armFails).report.new_tickets_detected = newTicketsOf B snap ∧
    (enforce_aggregate_risk snap st0 ks now thr N D closeOk armFails).report.closed
      = ((snap.positions.filter (fun p => decide (p.ticket ∈ newTicketsOf B snap))).filter
          (fun p => closeOk p.ticket)).map (fun p => p.ticket) ∧
    (enforce_aggregate_risk snap st0 ks now thr N D closeOk armFails).report.failed
      = ((snap.positions.filter (fun p => decide (p.ticket ∈ newTicketsOf B snap))).filter
          (fun p => !closeOk p.ticket)).map (fun p => p.ticket) ∧
    (enforce_aggregate_risk snap st0 ks now thr N D closeOk armFails).report.kill_switch_armed_now
      = (decide (N ≤ decayedAttempts st0 now D + (newTicketsOf B snap).length)
          && !kill_active ks now && !armFails) ∧
    (enforce_aggregate_risk snap st0 ks now thr N D closeOk
      armFails).report.kill_switch_active_after
      = kill_active (enforce_aggregate_risk snap st0 ks now thr N D closeOk armFails).ks now ∧
    (enforce_aggregate_risk snap st0 ks now thr N D closeOk
      armFails).report.kill_switch_until_after
      = (enforce_aggregate_risk snap st0 ks now thr N D closeOk armFails).ks.untilTs ∧
    (enforce_aggregate_risk snap st0 ks now thr N D closeOk armFails).report.attempts_after
      = decayedAttempts st0 now D + (newTicketsOf B snap).length := by
  have hBe : B.isEmpty = false := by
    cases B with
    | nil => exact absurd rfl hB
    | cons a l => rfl
  by_cases hnt : (newTicketsOf B snap).isEmpty = true
  · have hlen : (newTicketsOf B snap).length = 0 := by
      simpa [List.isEmpty_iff] using hnt
    by_cases hd : decayFires st0 now D = true <;>
      simp [enforce_aggregate_risk, hbase, hBe, hrisk, decayedAttempts, decayedLast,
        hnt, hlen, hd]
  · by_cases hd : decayFires st0 now D = true <;>
      simp [enforce_aggregate_risk, hbase, hBe, hrisk, decayedAttempts, decayedLast,
        hnt, hd]

theorem decayedAttempts_self (st : LimitsState) (now : Int) (D : Nat)
    (h : decayFires st now D = false ∨ st.block_attempts = 0) :
    decayedAttempts st now D = st.block_attempts := by
  rcases h with h | h
  · simp [decayedAttempts, h]
  · by_cases hd : decayFires st now D = true <;> simp [decayedAttempts, hd, h]

/-- C6: if `attempts > 0` and the idle time since `last_attempt_at` is at
least `block_minutes` (and the tick itself brings no new violation), the
call resets `attempts` to 0 and clears `last_attempt_at` in the persisted
state. -/
theorem decay_resets_attempts (snap : Snapshot) (st0 : LimitsState) (ks : KillSwitch)
    (now : Int) (thr : Rat) (N D : Nat) (closeOk : Nat → Bool) (armFails : Bool) (t : Int)
    (hatt : 0 < st0.block_attempts)
    (hlast : st0.last_attempt_at = some t)
    (hidle : (max 1 (D : Int)) * 60 ≤ now - t)
    (hnv : riskWithinLimit snap.total_risk_pct thr = true
      ∨ newTicketsOf (st0.baseline_tickets.getD []) snap = []) :
    (enforce_aggregate_risk snap st0 ks now thr N D closeOk armFails).st.block_attempts = 0 ∧
    (enforce_aggregate_risk snap st0 ks now thr N D closeOk armFails).st.last_attempt_at
      = none := by
  have hd : decayFires st0 now D = true := by
    simp [decayFires, hlast, hatt, hidle]
  have hda : decayedAttempts st0 now D = 0 := by simp [decayedAttempts, hd]
  have hdl : decayedLast st0 now D = none := by simp [decayedLast, hd]
  by_cases hbe : st0.baseline_tickets.getD [] = []
  · obtain ⟨hst, -⟩ := enforce_first_run_spec snap st0 ks now thr N D closeOk armFails hbe
    rw [hst]
    simp [hda, hdl]
  · have hsome : st0.baseline_tickets = some (st0.baseline_tickets.getD []) := by
      cases h : st0.baseline_tickets with
      | none => exact absurd (by simp [h]) hbe
      | some l => simp [h]
    by_cases hr : riskWithinLimit snap.total_risk_pct thr = true
    · obtain ⟨hst, -⟩ := enforce_risk_ok_spec snap st0 ks now thr N D closeOk armFails
        (st0.baseline_tickets.getD []) hsome hbe hr
      rw [hst]
      constructor
      · by_cases hres : ((st0.risk_block_active || kill_active ks now)
            && !kill_active ks now) = true <;> simp [hres, hda]
      · by_cases hres : ((st0.risk_block_active || kill_active ks now)
            && !kill_active ks now) = true <;> simp [hres, hdl]
    · have hnt : newTicketsOf (st0.baseline_tickets.getD []) snap = [] := by
        rcases hnv with h | h
        · exact absurd h hr
        · exact h
      simp only [Bool.not_eq_true] at hr
      obtain ⟨-, hatt3, hlast3, -⟩ := enforce_violation_spec snap st0 ks now thr N D closeOk
        armFails (st0.baseline_tickets.getD []) hsome hbe hr
      refine ⟨?_, ?_⟩
      · rw [hatt3, hnt]
        simp [hda]
      · rw [hlast3, hnt]
        simp [hdl]

theorem decay_resets_attempts_witness :
    (enforce_aggregate_risk ⟨3, [⟨1, "EURUSD"⟩]⟩ ⟨some [1], 2, some 0, false⟩ ⟨none⟩
      3600 5 3 60 (fun _ => true) false).st.block_attempts = 0 ∧
    (enforce_aggregate_risk ⟨3, [⟨1, "EURUSD"⟩]⟩ ⟨some [1], 2, some 0, false⟩ ⟨none⟩
      3600 5 3 60 (fun _ => true) false).st.last_attempt_at = none :=
  decay_resets_attempts ⟨3, [⟨1, "EURUSD"⟩]⟩ ⟨some [1], 2, some 0, false⟩ ⟨none⟩
    3600 5 3 60 (fun _ => true) false 0 (by decide) (by decide) (by decide)
    (Or.inl (by decide))

/-- C8: whenever the persisted baseline is absent or empty (including after
a first run that observed zero open positions and stored an empty list),
the first-run branch is taken: nothing is closed, no violation is counted,
attempts do not grow, and the baseline becomes the current ticket set
(empty again when the snapshot has no positions) regardless of the total
risk. -/
theorem empty_baseline_first_run (snap : Snapshot) (st0 : LimitsState) (ks : KillSwitch)
    (now : Int) (thr : Rat) (N D : Nat) (closeOk : Nat → Bool) (armFails : Bool)
    (hbase : st0.baseline_tickets.getD [] = []) :
    (enforce_aggregate_risk snap st0 ks now thr N D closeOk armFails).report.closed = [] ∧
    (enforce_aggregate_risk snap st0 ks now thr N D closeOk armFails).report.failed = [] ∧
    (enforce_aggregate_risk snap st0 ks now thr N D closeOk
      armFails).report.new_tickets_detected = [] ∧
    (enforce_aggregate_risk snap st0 ks now thr N D closeOk armFails).st.block_attempts
      ≤ st0.block_attempts ∧
    (enforce_aggregate_risk snap st0 ks now thr N D closeOk armFails).st.baseline_tickets
      = some (sortedTickets snap) ∧
    (snap.positions = [] →
      (enforce_aggregate_risk snap st0 ks now thr N D closeOk armFails).st.baseline_tickets
        = some []) := by
  obtain ⟨hst, -, hcl, hfl, hnt, -⟩ :=
    enforce_first_run_spec snap st0 ks now thr N D closeOk armFails hbase
  refine ⟨hcl, hfl, hnt, ?_, ?_, ?_⟩
  · rw [hst]
    show decayedAttempts st0 now D ≤ st0.block_attempts
    by_cases hd : decayFires st0 now D = true <;> simp [decayedAttempts, hd]
  · rw [hst]
  · intro hpos
    rw [hst]
    simp [sortedTickets, ticketsCurrent, hpos]

theorem empty_baseline_first_run_witness :
    (enforce_aggregate_risk ⟨100, [⟨7, "EURUSD"⟩]⟩ ⟨some [], 1, none, false⟩ ⟨none⟩
      0 5 3 60 (fun _ => true) false).report.closed = [] ∧
    (enforce_aggregate_risk ⟨100, [⟨7, "EURUSD"⟩]⟩ ⟨some [], 1, none, false⟩ ⟨none⟩
      0 5 3 60 (fun _ => true) false).report.failed = [] ∧
    (enforce_aggregate_risk ⟨100, [⟨7, "EURUSD"⟩]⟩ ⟨some [], 1, none, false⟩ ⟨none⟩
      0 5 3 60 (fun _ => true) false).report.new_tickets_detected = [] ∧
    (enforce_aggregate_risk ⟨100, [⟨7, "EURUSD"⟩]⟩ ⟨some [], 1, none, false⟩ ⟨none⟩
      0 5 3 60 (fun _ => true) false).st.block_attempts
      ≤ (⟨some [], 1, none, false⟩ : LimitsState).block_attempts ∧
    (enforce_aggregate_risk ⟨100, [⟨7, "EURUSD"⟩]⟩ ⟨some [], 1, none, false⟩ ⟨none⟩
      0 5 3 60 (fun _ => true) false).st.baseline_tickets
      = some (sortedTickets ⟨100, [⟨7, "EURUSD"⟩]⟩) ∧
    ((⟨100, [⟨7, "EURUSD"⟩]⟩ : Snapshot).positions = [] →
      (enforce_aggregate_risk ⟨100, [⟨7, "EURUSD"⟩]⟩ ⟨some [], 1, none, false⟩ ⟨none⟩
        0 5 3 60 (fun _ => true) false).st.baseline_tickets = some []) :=
  empty_baseline_first_run ⟨100, [⟨7, "EURUSD"⟩]⟩ ⟨some [], 1, none, false⟩ ⟨none⟩
    0 5 3 60 (fun _ => true) false (by decide)

/-- C10: when the attempt cap is reached, the kill switch is inactive, and
the `set_kill_until` call raises, `enforce_aggregate_risk` swallows the
exception and returns normally: the report shows the switch unarmed and
inactive with no until timestamp, the switch state is unchanged, yet
`risk_block_active` is persisted as true. -/
theorem arm_failure_swallowed (snap : Snapshot) (st0 : LimitsState) (ks : KillSwitch)
    (now : Int) (thr : Rat) (N D : Nat) (closeOk : Nat → Bool)
    (B : List Nat) (hbase : st0.baseline_tickets = some B) (hB : B ≠ [])
    (hrisk : riskWithinLimit snap.total_risk_pct thr = false)
    (hreach : N ≤ decayedAttempts st0 now D + (newTicketsOf B snap).length)
    (hks : ks.untilTs = none) :
    (enforce_aggregate_risk snap st0 ks now thr N D closeOk
      true).report.kill_switch_armed_now = false ∧
    (enforce_aggregate_risk snap st0 ks now thr N D closeOk
      true).report.kill_switch_active_after = false ∧
    (enforce_aggregate_risk snap st0 ks now thr N D closeOk
      true).report.kill_switch_until_after = none ∧
    (enforce_aggregate_risk snap st0 ks now thr N D closeOk
      true).st.risk_block_active = true ∧
    (enforce_aggregate_risk snap st0 ks now thr N D closeOk true).ks = ks ∧
    enforce_aggregate_risk_checked (.ok snap) st0 ks now thr N D closeOk true
      = .ok (enforce_aggregate_risk snap st0 ks now thr N D closeOk true) := by
  obtain ⟨-, -, -, hks2, hrba, -, -, -, harm, hka, hku, -⟩ :=
    enforce_violation_spec snap st0 ks now thr N D closeOk true B hbase hB hrisk
  have hks2' : (enforce_aggregate_risk snap st0 ks now thr N D closeOk true).ks = ks := by
    rw [hks2]
    simp
  have hkact : kill_active (enforce_aggregate_risk snap st0 ks now thr N D closeOk true).ks now
      = false := by
    rw [hks2']
    simp [kill_active, hks]
  refine ⟨?_, ?_, ?_, ?_, hks2', rfl⟩
  · rw [harm]
    simp
  · rw [hka, hkact]
  · rw [hku, hks2', hks]
  · rw [hrba, hkact]
    simp [hreach]

theorem arm_failure_swallowed_witness :
    (enforce_aggregate_risk ⟨10, [⟨2, "EURUSD"⟩]⟩ ⟨some [1], 2, none, false⟩ ⟨none⟩
      0 5 3 60 (fun _ => true) true).report.kill_switch_armed_now = false ∧
    (enforce_aggregate_risk ⟨10, [⟨2, "EURUSD"⟩]⟩ ⟨some [1], 2, none, false⟩ ⟨none⟩
      0 5 3 60 (fun _ => true) true).report.kill_switch_active_after = false ∧
    (enforce_aggregate_risk ⟨10, [⟨2, "EURUSD"⟩]⟩ ⟨some [1], 2, none, false⟩ ⟨none⟩
      0 5 3 60 (fun _ => true) true).report.kill_switch_until_after = none ∧
    (enforce_aggregate_risk ⟨10, [⟨2, "EURUSD"⟩]⟩ ⟨some [1], 2, none, false⟩ ⟨none⟩
      0 5 3 60 (fun _ => true) true).st.risk_block_active = true ∧
    (enforce_aggregate_risk ⟨10, [⟨2, "EURUSD"⟩]⟩ ⟨some [1], 2, none, false⟩ ⟨none⟩
      0 5 3 60 (fun _ => true) true).ks = ⟨none⟩ ∧
    enforce_aggregate_risk_checked (.ok ⟨10, [⟨2, "EURUSD"⟩]⟩) ⟨some [1], 2, none, false⟩
      ⟨none⟩ 0 5 3 60 (fun _ => true) true
      = .ok (enforce_aggregate_risk ⟨10, [⟨2, "EURUSD"⟩]⟩ ⟨some [1], 2, none, false⟩ ⟨none⟩
        0 5 3 60 (fun _ => true) true) :=
  arm_failure_swallowed ⟨10, [⟨2, "EURUSD"⟩]⟩ ⟨some [1], 2, none, false⟩ ⟨none⟩
    0 5 3 60 (fun _ => true) [1] rfl (by decide) (by decide) (by decide) rfl

/-- C5 counterexample: with risk at 3 (below threshold 5), a persisted
`risk_block_active = true` and an inactive kill switch, the first of two
successive calls already changes the attempts counter (clean reset 2 to 0),
contradicting the claim that neither call changes `attempts`. -/
theorem ok_idempotence_counterexample :
    riskWithinLimit (3 : Rat) 5 = true ∧
    (⟨some [1], 2, none, true⟩ : LimitsState).block_attempts = 2 ∧
    (enforce_aggregate_risk ⟨3, [⟨1, "EURUSD"⟩]⟩ ⟨some [1], 2, none, true⟩ ⟨none⟩
      0 5 3 60 (fun _ => true) false).st.block_attempts = 0 := by
  decide

theorem decayFires_congr (st st2 : LimitsState) (now : Int) (D : Nat)
    (ha : st.block_attempts = st2.block_attempts)
    (hl : st.last_attempt_at = st2.last_attempt_at) :
    decayFires st now D = decayFires st2 now D := by
  simp [decayFires, ha, hl]

/-- C5 amended: with an unchanged snapshot whose risk is at or below the
threshold and a nonempty baseline, neither of two successive calls closes
anything or detects a violation, and the second call leaves the attempts
counter unchanged (the first call may reset it to 0 by clean reset or
decay). -/
theorem enforce_ok_idempotent (snap : Snapshot) (st0 : LimitsState) (ks : KillSwitch)
    (now : Int) (thr : Rat) (N D : Nat) (closeOk : Nat → Bool) (armFails : Bool)
    (hrisk : riskWithinLimit snap.total_risk_pct thr = true)
    (hbase : st0.baseline_tickets.getD [] ≠ []) :
    (enforce_aggregate_risk snap st0 ks now thr N D closeOk armFails).report.closed = [] ∧
    (enforce_aggregate_risk snap st0 ks now thr N D closeOk armFails).report.failed = [] ∧
    (enforce_aggregate_risk snap st0 ks now thr N D closeOk
      armFails).report.new_tickets_detected = [] ∧
    (enforce_aggregate_risk snap
      (enforce_aggregate_risk snap st0 ks now thr N D closeOk armFails).st
      (enforce_aggregate_risk snap st0 ks now thr N D closeOk armFails).ks
      now thr N D closeOk armFails).report.closed = [] ∧
    (enforce_aggregate_risk snap
      (enforce_aggregate_risk snap st0 ks now thr N D closeOk armFails).st
      (enforce_aggregate_risk snap st0 ks now thr N D closeOk armFails).ks
      now thr N D closeOk armFails).report.failed = [] ∧
    (enforce_aggregate_risk snap
      (enforce_aggregate_risk snap st0 ks now thr N D closeOk armFails).st
      (enforce_aggregate_risk snap st0 ks now thr N D closeOk armFails).ks
      now thr N D closeOk armFails).report.new_tickets_detected = [] ∧
    (enforce_aggregate_risk snap
      (enforce_aggregate_risk snap st0 ks now thr N D closeOk armFails).st
      (enforce_aggregate_risk snap st0 ks now thr N D closeOk armFails).ks
      now thr N D closeOk armFails).st.block_attempts
      = (enforce_aggregate_risk snap st0 ks now thr N D closeOk armFails).st.block_attempts := by
  have hsome : st0.baseline_tickets = some (st0.baseline_tickets.getD []) := by
    cases h : st0.baseline_tickets with
    | none => exact absurd (by simp [h]) hbase
    | some l => simp [h]
  obtain ⟨hst1, hks1, hcl1, hfl1, hnt1, -⟩ := enforce_risk_ok_spec snap st0 ks now thr N D
    closeOk armFails (st0.baseline_tickets.getD []) hsome hbase hrisk
  have hbase1 : (enforce_aggregate_risk snap st0 ks now thr N D closeOk
      armFails).st.baseline_tickets = some (sortedTickets snap) := by rw [hst1]
  -- after the first call the decay check cannot change the attempts counter
  have hnd1 : decayedAttempts (enforce_aggregate_risk snap st0 ks now thr N D closeOk
      armFails).st now D
      = (enforce_aggregate_risk snap st0 ks now thr N D closeOk armFails).st.block_attempts := by
    apply decayedAttempts_self
    by_cases hres : ((st0.risk_block_active || kill_active ks now)
        && !kill_active ks now) = true
    · right
      rw [hst1]
      simp [hres]
    · by_cases hd : decayFires st0 now D = true
      · right
        rw [hst1]
        simp [hres, hd, decayedAttempts]
      · left
        have hba : (enforce_aggregate_risk snap st0 ks now thr N D closeOk
            armFails).st.block_attempts = st0.block_attempts := by
          rw [hst1]
          simp [hres, decayedAttempts, hd]
        have hla : (enforce_aggregate_risk snap st0 ks now thr N D closeOk
            armFails).st.last_attempt_at = st0.last_attempt_at := by
          rw [hst1]
          simp [hres, decayedLast, hd]
        rw [decayFires_congr _ st0 now D hba hla]
        simpa using hd
  by_cases hs : sortedTickets snap = []
  · -- the refreshed baseline is empty: second call takes the first-run branch
    have hbe2 : (enforce_aggregate_risk snap st0 ks now thr N D closeOk
        armFails).st.baseline_tickets.getD [] = [] := by
      rw [hbase1, hs]
      rfl
    obtain ⟨hst2, -, hcl2, hfl2, hnt2, -⟩ := enforce_first_run_spec snap
      (enforce_aggregate_risk snap st0 ks now thr N D closeOk armFails).st
      (enforce_aggregate_risk snap st0 ks now thr N D closeOk armFails).ks
      now thr N D closeOk armFails hbe2
    refine ⟨hcl1, hfl1, hnt1, hcl2, hfl2, hnt2, ?_⟩
    rw [hst2]
    exact hnd1
  · -- nonempty refreshed baseline: second call takes the risk-OK branch again
    have hbe2 : (enforce_aggregate_risk snap st0 ks now thr N D closeOk
        armFails).st.baseline_tickets.getD [] ≠ [] := by
      rw [hbase1]
      simpa using hs
    have hsome2 : (enforce_aggregate_risk snap st0 ks now thr N D closeOk
        armFails).st.baseline_tickets
        = some ((enforce_aggregate_risk snap st0 ks now thr N D closeOk
          armFails).st.baseline_tickets.getD []) := by
      rw [hbase1]
      rfl
    obtain ⟨hst2, -, hcl2, hfl2, hnt2, -⟩ := enforce_risk_ok_spec snap
      (enforce_aggregate_risk snap st0 ks now thr N D closeOk armFails).st
      (enforce_aggregate_risk snap st0 ks now thr N D closeOk armFails).ks
      now thr N D closeOk armFails _ hsome2 hbe2 hrisk
    refine ⟨hcl1, hfl1, hnt1, hcl2, hfl2, hnt2, ?_⟩
    -- the clean-reset condition is false on the second call
    have hflag1 : (((enforce_aggregate_risk snap st0 ks now thr N D closeOk
        armFails).st.risk_block_active
          || kill_active (enforce_aggregate_risk snap st0 ks now thr N D closeOk armFails).ks
            now)
        && !kill_active (enforce_aggregate_risk snap st0 ks now thr N D closeOk armFails).ks
            now) = false := by
      rw [hks1, hst1]
      cases hk : kill_active ks now with
      | true => simp [hk]
      | false =>
        cases hf : st0.risk_block_active with
        | true => simp [hk, hf]
        | false => simp [hk, hf]
    rw [hst2]
    simp only [hflag1, Bool.false_eq_true, if_false]
    exact hnd1

theorem enforce_ok_idempotent_witness :
    (enforce_aggregate_risk ⟨3, [⟨1, "EURUSD"⟩]⟩ ⟨some [1], 1, some 0, false⟩ ⟨none⟩
      60 5 3 60 (fun _ => true) false).report.closed = [] ∧
    (enforce_aggregate_risk ⟨3, [⟨1, "EURUSD"⟩]⟩ ⟨some [1], 1, some 0, false⟩ ⟨none⟩
      60 5 3 60 (fun _ => true) false).report.failed = [] ∧
    (enforce_aggregate_risk ⟨3, [⟨1, "EURUSD"⟩]⟩ ⟨some [1], 1, some 0, false⟩ ⟨none⟩
      60 5 3 60 (fun _ => true) false).report.new_tickets_detected = [] ∧
    (enforce_aggregate_risk ⟨3, [⟨1, "EURUSD"⟩]⟩
      (enforce_aggregate_risk ⟨3, [⟨1, "EURUSD"⟩]⟩ ⟨some [1], 1, some 0, false⟩ ⟨none⟩
        60 5 3 60 (fun _ => true) false).st
      (enforce_aggregate_risk ⟨3, [⟨1, "EURUSD"⟩]⟩ ⟨some [1], 1, some 0, false⟩ ⟨none⟩
        60 5 3 60 (fun _ => true) false).ks
      60 5 3 60 (fun _ => true) false).report.closed = [] ∧
    (enforce_aggregate_risk ⟨3, [⟨1, "EURUSD"⟩]⟩
      (enforce_aggregate_risk ⟨3, [⟨1, "EURUSD"⟩]⟩ ⟨some [1], 1, some 0, false⟩ ⟨none⟩
        60 5 3 60 (fun _ => true) false).st
      (enforce_aggregate_risk ⟨3, [⟨1, "EURUSD"⟩]⟩ ⟨some [1], 1, some 0, false⟩ ⟨none⟩
        60 5 3 60 (fun _ => true) false).ks
      60 5 3 60 (fun _ => true) false).report.failed = [] ∧
    (enforce_aggregate_risk ⟨3, [⟨1, "EURUSD"⟩]⟩
      (enforce_aggregate_risk ⟨3, [⟨1, "EURUSD"⟩]⟩ ⟨some [1], 1, some 0, false⟩ ⟨none⟩
        60 5 3 60 (fun _ => true) false).st
      (enforce_aggregate_risk ⟨3, [⟨1, "EURUSD"⟩]⟩ ⟨some [1], 1, some 0, false⟩ ⟨none⟩
        60 5 3 60 (fun _ => true) false).ks
      60 5 3 60 (fun _ => true) false).report.new_tickets_detected = [] ∧
    (enforce_aggregate_risk ⟨3, [⟨1, "EURUSD"⟩]⟩
      (enforce_aggregate_risk ⟨3, [⟨1, "EURUSD"⟩]⟩ ⟨some [1], 1, some 0, false⟩ ⟨none⟩
        60 5 3 60 (fun _ => true) false).st
      (enforce_aggregate_risk ⟨3, [⟨1, "EURUSD"⟩]⟩ ⟨some [1], 1, some 0, false⟩ ⟨none⟩
        60 5 3 60 (fun _ => true) false).ks
      60 5 3 60 (fun _ => true) false).st.block_attempts
      = (enforce_aggregate_risk ⟨3, [⟨1, "EURUSD"⟩]⟩ ⟨some [1], 1, some 0, false⟩ ⟨none⟩
        60 5 3 60 (fun _ => true) false).st.block_attempts :=
  enforce_ok_idempotent ⟨3, [⟨1, "EURUSD"⟩]⟩ ⟨some [1], 1, some 0, false⟩ ⟨none⟩
    60 5 3 60 (fun _ => true) false (by decide) (by decide)

theorem baseline_getD_some (st : LimitsState) (h : st.baseline_tickets.getD [] ≠ []) :
    st.baseline_tickets = some (st.baseline_tickets.getD []) := by
  cases hb : st.baseline_tickets with
  | none => exact absurd (by simp [hb]) h
  | some l => simp [hb]

theorem mem_sortedTickets (x : Nat) (snap : Snapshot) :
    x ∈ sortedTickets snap ↔ x ∈ ticketsCurrent snap :=
  (List.perm_insertionSort _ _).mem_iff

/-- Position snapshots are persistent for ticket `x` along a tick sequence:
whenever `x` is absent from one snapshot it stays absent from all later
ones (a closed position does not reopen). -/
def onceAbsentB (x : Nat) : List Tick → Bool
  | [] => true
  | tk :: rest =>
    (decide (x ∈ ticketsCurrent tk.snap)
      || rest.all (fun tk2 => decide (x ∉ ticketsCurrent tk2.snap)))
    && onceAbsentB x rest

theorem baseline_ticket_inv (x : Nat) (thr : Rat) (N D : Nat) (closeOk : Nat → Bool)
    (ticks : List Tick) :
    ∀ (st : LimitsState) (ks : KillSwitch),
      onceAbsentB x ticks = true →
      (x ∈ st.baseline_tickets.getD [] ∨ st.baseline_tickets.getD [] = []
        ∨ ∀ tk ∈ ticks, x ∉ ticketsCurrent tk.snap) →
      ∀ rep ∈ (runTicksTrace thr N D closeOk st ks ticks).2,
        x ∉ rep.new_tickets_detected ∧ x ∉ rep.closed ∧ x ∉ rep.failed := by
  induction ticks with
  | nil =>
    intro st ks _ _ rep hrep
    simp [runTicksTrace] at hrep
  | cons tk rest ih =>
    intro st ks hoa hJ rep hrep
    simp only [runTicksTrace, List.mem_cons] at hrep
    have hoa' : ((decide (x ∈ ticketsCurrent tk.snap)
        || rest.all (fun tk2 => decide (x ∉ ticketsCurrent tk2.snap))) = true)
        ∧ onceAbsentB x rest = true := by
      simpa [onceAbsentB, Bool.and_eq_true] using hoa
    -- invariant transported to the state after the first tick
    have hkeep : ∀ (snap2 : Snapshot), snap2 = tk.snap →
        x ∈ sortedTickets snap2 ∨ sortedTickets snap2 = []
          ∨ ∀ tk2 ∈ rest, x ∉ ticketsCurrent tk2.snap := by
      intro snap2 hsnap2
      subst hsnap2
      by_cases hx : x ∈ ticketsCurrent tk.snap
      · exact Or.inl ((mem_sortedTickets x tk.snap).mpr hx)
      · refine Or.inr (Or.inr ?_)
        have := hoa'.1
        rcases Bool.or_eq_true_iff.mp this with h | h
        · exact absurd (of_decide_eq_true h) hx
        · intro tk2 htk2
          have := List.all_eq_true.mp h tk2 htk2
          simpa using this
    by_cases hbe : st.baseline_tickets.getD [] = []
    · -- first-run branch
      obtain ⟨hst, hks, hcl, hfl, hnt, -⟩ :=
        enforce_first_run_spec tk.snap st ks tk.now thr N D closeOk false hbe
      rcases hrep with hrep | hrep
      · subst hrep
        simp [hcl, hfl, hnt]
      · refine ih _ _ hoa'.2 ?_ rep hrep
        rw [hst]
        rcases hkeep tk.snap rfl with h | h | h
        · exact Or.inl (by simpa using h)
        · exact Or.inr (Or.inl (by simpa using h))
        · exact Or.inr (Or.inr h)
    · have hsome := baseline_getD_some st hbe
      by_cases hr : riskWithinLimit tk.snap.total_risk_pct thr = true
      · -- risk-OK branch
        obtain ⟨hst, hks, hcl, hfl, hnt, -⟩ :=
          enforce_risk_ok_spec tk.snap st ks tk.now thr N D closeOk false
            (st.baseline_tickets.getD []) hsome hbe hr
        rcases hrep with hrep | hrep
        · subst hrep
          simp [hcl, hfl, hnt]
        · refine ih _ _ hoa'.2 ?_ rep hrep
          rw [hst]
          rcases hkeep tk.snap rfl with h | h | h
          · exact Or.inl (by simpa using h)
          · exact Or.inr (Or.inl (by simpa using h))
          · exact Or.inr (Or.inr h)
      · -- violation branch
        simp only [Bool.not_eq_true] at hr
        obtain ⟨hst, hatt, hlast, hks, hrba, hnt, hcl, hfl, -⟩ :=
          enforce_violation_spec tk.snap st ks tk.now thr N D closeOk false
            (st.baseline_tickets.getD []) hsome hbe hr
        -- where can x sit?
        have hxcase : x ∈ st.baseline_tickets.getD []
            ∨ x ∉ ticketsCurrent tk.snap := by
          rcases hJ with h | h | h
          · exact Or.inl h
          · exact absurd h hbe
          · exact Or.inr (h tk (by simp))
        have hxnew : x ∉ newTicketsOf (st.baseline_tickets.getD []) tk.snap := by
          rcases hxcase with h | h
          · intro hmem
            have := (List.mem_filter.mp hmem).2
            simp at this
            exact this h
          · intro hmem
            exact h (List.mem_filter.mp hmem).1
        rcases hrep with hrep | hrep
        · subst hrep
          refine ⟨by rw [hnt]; exact hxnew, ?_, ?_⟩
          · rw [hcl]
            intro hmem
            rcases List.mem_map.mp hmem with ⟨p, hp, hpx⟩
            have hp1 := (List.mem_filter.mp (List.mem_filter.mp hp).1).2
            rw [hpx] at hp1
            exact hxnew (of_decide_eq_true hp1)
          · rw [hfl]
            intro hmem
            rcases List.mem_map.mp hmem with ⟨p, hp, hpx⟩
            have hp1 := (List.mem_filter.mp (List.mem_filter.mp hp).1).2
            rw [hpx] at hp1
            exact hxnew (of_decide_eq_true hp1)
        · refine ih _ _ hoa'.2 ?_ rep hrep
          rw [hst]
          rcases hxcase with h | h
          · exact Or.inl (by simpa using h)
          · refine Or.inr (Or.inr ?_)
            have := hoa'.1
            rcases Bool.or_eq_true_iff.mp this with h2 | h2
            · exact absurd (of_decide_eq_true h2) h
            · intro tk2 htk2
              have := List.all_eq_true.mp h2 tk2 htk2
              simpa using this

/-- C3: starting from the first run (empty baseline), a ticket present in
the first snapshot is never reported as a new-ticket violation and never
receives a close request on any later tick, as long as position presence is
persistent (once a ticket leaves the snapshots it does not reappear). -/
theorem baseline_ticket_never_violated (x : Nat) (thr : Rat) (N D : Nat)
    (closeOk : Nat → Bool) (st0 : LimitsState) (ks0 : KillSwitch)
    (tk0 : Tick) (rest : List Tick)
    (hst : st0.baseline_tickets.getD [] = [])
    (_hx0 : x ∈ ticketsCurrent tk0.snap)
    (hper : onceAbsentB x (tk0 :: rest) = true) :
    ∀ rep ∈ (runTicksTrace thr N D closeOk st0 ks0 (tk0 :: rest)).2,
      x ∉ rep.new_tickets_detected ∧ x ∉ rep.closed ∧ x ∉ rep.failed :=
  baseline_ticket_inv x thr N D closeOk (tk0 :: rest) st0 ks0 hper
    (Or.inr (Or.inl hst))

theorem baseline_ticket_never_violated_witness :
    ((runTicksTrace 5 3 60 (fun _ => true) ⟨none, 0, none, false⟩ ⟨none⟩
      [⟨0, ⟨3, [⟨1, "EURUSD"⟩]⟩⟩, ⟨60, ⟨10, [⟨1, "EURUSD"⟩, ⟨2, "USDJPY"⟩]⟩⟩]).2.all
      (fun rep => decide (1 ∉ rep.new_tickets_detected) && decide (1 ∉ rep.closed)
        && decide (1 ∉ rep.failed))) = true := by
  have h := baseline_ticket_never_violated 1 5 3 60 (fun _ => true) ⟨none, 0, none, false⟩
    ⟨none⟩ ⟨0, ⟨3, [⟨1, "EURUSD"⟩]⟩⟩ [⟨60, ⟨10, [⟨1, "EURUSD"⟩, ⟨2, "USDJPY"⟩]⟩⟩]
    (by decide) (by decide) (by decide)
  rw [List.all_eq_true]
  intro rep hrep
  obtain ⟨h1, h2, h3⟩ := h rep hrep
  simp [h1, h2, h3]

theorem attempt_accounting_aux (B : List Nat) (hB : B ≠ []) (thr : Rat) (N D : Nat)
    (closeOk : Nat → Bool) (ticks : List Tick) :
    ∀ (st : LimitsState) (ks : KillSwitch),
      (∀ tk ∈ ticks, riskWithinLimit tk.snap.total_risk_pct thr = false) →
      (∀ tk ∈ ticks, 1 ≤ (newTicketsOf B tk.snap).length) →
      List.Chain' (fun a b => a.now < b.now ∧ b.now - a.now < (max 1 (D : Int)) * 60) ticks →
      st.baseline_tickets = some B →
      st.risk_block_active = decide (N ≤ st.block_attempts) →
      (decide (N ≤ st.block_attempts) = false → ks.untilTs = none) →
      (∀ tk0, ticks.head? = some tk0 → decayFires st tk0.now D = false) →
      ((runTicksTrace thr N D closeOk st ks ticks).1.1.block_attempts
         = st.block_attempts + (ticks.map (fun tk => (newTicketsOf B tk.snap).length)).sum
       ∧ (runTicksTrace thr N D closeOk st ks ticks).1.1.risk_block_active
         = decide (N ≤ st.block_attempts
             + (ticks.map (fun tk => (newTicketsOf B tk.snap).length)).sum)) := by
  induction ticks with
  | nil =>
    intro st ks _ _ _ _ hflag _ _
    simpa [runTicksTrace] using hflag
  | cons tk rest ih =>
    intro st ks hrisk hnew hchain hbase hflag hks hnd
    have hrisk0 : riskWithinLimit tk.snap.total_risk_pct thr = false :=
      hrisk tk (by simp)
    have hc : 1 ≤ (newTicketsOf B tk.snap).length := hnew tk (by simp)
    have hnd0 : decayFires st tk.now D = false := hnd tk rfl
    have hda : decayedAttempts st tk.now D = st.block_attempts :=
      decayedAttempts_self st tk.now D (Or.inl hnd0)
    obtain ⟨hbase1, hatt1, hlast1, hks1, hflag1, -⟩ :=
      enforce_violation_spec tk.snap st ks tk.now thr N D closeOk false B hbase hB hrisk0
    have hntne : (newTicketsOf B tk.snap).isEmpty = false := by
      cases hnt : newTicketsOf B tk.snap with
      | nil => rw [hnt] at hc; simp at hc
      | cons a l => rfl
    have hlast1' : (enforce_aggregate_risk tk.snap st ks tk.now thr N D closeOk
        false).st.last_attempt_at = some tk.now := by
      rw [hlast1, hntne]
      simp
    have hatt1' : (enforce_aggregate_risk tk.snap st ks tk.now thr N D closeOk
        false).st.block_attempts = st.block_attempts + (newTicketsOf B tk.snap).length := by
      rw [hatt1, hda]
    have hchain' := List.chain'_cons'.mp hchain
    -- the risk-block flag after the tick
    have hflag2 : (enforce_aggregate_risk tk.snap st ks tk.now thr N D closeOk
        false).st.risk_block_active
        = decide (N ≤ st.block_attempts + (newTicketsOf B tk.snap).length) := by
      rw [hflag1, hda]
      by_cases hN : N ≤ st.block_attempts + (newTicketsOf B tk.snap).length
      · simp [hN]
      · have hNs : ¬ N ≤ st.block_attempts := fun h => hN (h.trans (Nat.le_add_right _ _))
        have hku : ks.untilTs = none := hks (by simp [hNs])
        have hkact : kill_active ks tk.now = false := by simp [kill_active, hku]
        have harm : (decide (N ≤ st.block_attempts + (newTicketsOf B tk.snap).length)
            && !kill_active ks tk.now && !false) = false := by
          simp [hN]
        rw [hks1, hda] at *
        simp only [harm, Bool.false_eq_true, if_false]
        rw [hflag]
        simp [hN, hNs, hkact]
    -- the kill switch stays clear while the cap is not reached
    have hks2 : decide (N ≤ (enforce_aggregate_risk tk.snap st ks tk.now thr N D closeOk
        false).st.block_attempts) = false →
        (enforce_aggregate_risk tk.snap st ks tk.now thr N D closeOk false).ks.untilTs
          = none := by
      intro hN
      rw [hatt1'] at hN
      have hN' : ¬ N ≤ st.block_attempts + (newTicketsOf B tk.snap).length := by
        simpa using hN
      have hNs : ¬ N ≤ st.block_attempts := fun h => hN' (h.trans (Nat.le_add_right _ _))
      have hku : ks.untilTs = none := hks (by simp [hNs])
      rw [hks1, hda]
      simp [hN', hku]
    -- no decay on the next tick
    have hnd2 : ∀ tk1, rest.head? = some tk1 →
        decayFires (enforce_aggregate_risk tk.snap st ks tk.now thr N D closeOk false).st
          tk1.now D = false := by
      intro tk1 h1
      have hrel := hchain'.1 tk1 h1
      have : ¬ ((max 1 (D : Int)) * 60 ≤ tk1.now - tk.now) := by
        exact not_le.mpr hrel.2
      simp [decayFires, hlast1', this]
    have hrest := ih (enforce_aggregate_risk tk.snap st ks tk.now thr N D closeOk false).st
      (enforce_aggregate_risk tk.snap st ks tk.now thr N D closeOk false).ks
      (fun tk2 h2 => hrisk tk2 (by simp [h2]))
      (fun tk2 h2 => hnew tk2 (by simp [h2]))
      hchain'.2 hbase1
      (by rw [hflag2, hatt1'])
      hks2 hnd2
    simp only [runTicksTrace]
    refine ⟨?_, ?_⟩
    · rw [hrest.1, hatt1']
      simp [Nat.add_assoc]
    · rw [hrest.2, hatt1']
      simp [Nat.add_assoc]

/-- C1: starting from a nonempty baseline with a zero attempts counter, an
inactive block flag and a clear kill switch, over any sequence of violating
ticks (risk above threshold, at least one new ticket each, gaps below the
decay window) the persisted attempts counter equals the total number of
new-ticket violations across the whole sequence, however they are split
over ticks, and `risk_block_active` is true exactly when that total has
reached `max_block_attempts`; a total of `max_block_attempts - 1` or fewer
never sets it. -/
theorem attempt_accounting (B : List Nat) (hB : B ≠ []) (thr : Rat) (N D : Nat)
    (hN : 0 < N) (closeOk : Nat → Bool) (ticks : List Tick)
    (hrisk : ∀ tk ∈ ticks, riskWithinLimit tk.snap.total_risk_pct thr = false)
    (hnew : ∀ tk ∈ ticks, 1 ≤ (newTicketsOf B tk.snap).length)
    (hgap : List.Chain' (fun a b => a.now < b.now
      ∧ b.now - a.now < (max 1 (D : Int)) * 60) ticks) :
    (runTicksTrace thr N D closeOk ⟨some B, 0, none, false⟩ ⟨none⟩ ticks).1.1.block_attempts
      = (ticks.map (fun tk => (newTicketsOf B tk.snap).length)).sum ∧
    (runTicksTrace thr N D closeOk ⟨some B, 0, none, false⟩ ⟨none⟩
      ticks).1.1.risk_block_active
      = decide (N ≤ (ticks.map (fun tk => (newTicketsOf B tk.snap).length)).sum) := by
  have hN0 : ¬ N ≤ 0 := by omega
  have h := attempt_accounting_aux B hB thr N D closeOk ticks ⟨some B, 0, none, false⟩ ⟨none⟩
    hrisk hnew hgap rfl (by simp [hN0]) (fun _ => rfl)
    (fun tk0 _ => by simp [decayFires])
  simpa using h

theorem attempt_accounting_witness :
    (runTicksTrace 5 3 60 (fun _ => true) ⟨some [1], 0, none, false⟩ ⟨none⟩
      ([⟨0, ⟨10, [⟨2, "EURUSD"⟩]⟩⟩, ⟨60, ⟨10, [⟨2, "EURUSD"⟩, ⟨3, "USDJPY"⟩]⟩⟩] :
        List Tick)).1.1.block_attempts
      = (([⟨0, ⟨10, [⟨2, "EURUSD"⟩]⟩⟩, ⟨60, ⟨10, [⟨2, "EURUSD"⟩, ⟨3, "USDJPY"⟩]⟩⟩] :
          List Tick).map (fun tk => (newTicketsOf [1] tk.snap).length)).sum ∧
    (runTicksTrace 5 3 60 (fun _ => true) ⟨some [1], 0, none, false⟩ ⟨none⟩
      ([⟨0, ⟨10, [⟨2, "EURUSD"⟩]⟩⟩, ⟨60, ⟨10, [⟨2, "EURUSD"⟩, ⟨3, "USDJPY"⟩]⟩⟩] :
        List Tick)).1.1.risk_block_active
      = decide (3 ≤ (([⟨0, ⟨10, [⟨2, "EURUSD"⟩]⟩⟩,
          ⟨60, ⟨10, [⟨2, "EURUSD"⟩, ⟨3, "USDJPY"⟩]⟩⟩] :
          List Tick).map (fun tk => (newTicketsOf [1] tk.snap).length)).sum) :=
  attempt_accounting [1] (by decide) 5 3 60 (by decide) (fun _ => true)
    ([⟨0, ⟨10, [⟨2, "EURUSD"⟩]⟩⟩, ⟨60, ⟨10, [⟨2, "EURUSD"⟩, ⟨3, "USDJPY"⟩]⟩⟩] : List Tick)
    (by decide) (by decide)
    (by simp [List.chain'_cons, List.chain'_singleton])

/-- Combine two optional timestamps by maximum. -/
def omaxE : Option Int → Option Int → Option Int
  | a, none => a
  | none, some t => some t
  | some m, some t => some (max m t)

/-- One step of the running maximum of event timestamps. -/
def tsMaxStep (acc : Option Int) (e : NewsEvent) : Option Int :=
  some (match acc with
    | none => e.ts_utc
    | some m => max m e.ts_utc)

/-- Running maximum of event timestamps, `none` on the empty list. -/
def optTsMax (l : List NewsEvent) : Option Int :=
  l.foldl tsMaxStep none

theorem omaxE_none_left (b : Option Int) : omaxE none b = b := by
  cases b <;> rfl

theorem omaxE_assoc (a b c : Option Int) :
    omaxE (omaxE a b) c = omaxE a (omaxE b c) := by
  cases a <;> cases b <;> cases c <;> simp [omaxE, max_assoc]

theorem tsMaxStep_eq (a : Option Int) (e : NewsEvent) :
    tsMaxStep a e = omaxE a (some e.ts_utc) := by
  cases a <;> rfl

theorem optTsMax_foldl (l : List NewsEvent) :
    ∀ a : Option Int, l.foldl tsMaxStep a = omaxE a (optTsMax l) := by
  induction l with
  | nil =>
    intro a
    cases a <;> rfl
  | cons e es ih =>
    intro a
    have hcons : optTsMax (e :: es) = omaxE (some e.ts_utc) (optTsMax es) := by
      show es.foldl tsMaxStep (tsMaxStep none e) = _
      rw [tsMaxStep_eq, omaxE_none_left]
      exact ih _
    rw [hcons, List.foldl_cons, tsMaxStep_eq, ih _, omaxE_assoc]

theorem optTsMax_append (l1 l2 : List NewsEvent) :
    optTsMax (l1 ++ l2) = omaxE (optTsMax l1) (optTsMax l2) := by
  rw [optTsMax, List.foldl_append]
  exact optTsMax_foldl l2 _

theorem foldl_tsMaxStep_some (es : List NewsEvent) :
    ∀ x : Int, es.foldl tsMaxStep (some x)
      = some (es.foldl (fun m r => max m r.ts_utc) x) := by
  induction es with
  | nil =>
    intro x
    rfl
  | cons e2 es2 ih =>
    intro x
    rw [List.foldl_cons, List.foldl_cons]
    exact ih (max x e2.ts_utc)

theorem optTsMax_eq_tsMax (l : List NewsEvent) (h : l ≠ []) :
    optTsMax l = some (tsMax l) := by
  cases l with
  | nil => exact absurd rfl h
  | cons e es =>
    show es.foldl tsMaxStep (tsMaxStep none e) = _
    rw [show tsMaxStep none e = some e.ts_utc from rfl, foldl_tsMaxStep_some]
    rfl

theorem maxUntilUpdate_eq (a : Option Int) (t : Int) :
    maxUntilUpdate a t = omaxE a (some t) := by
  cases a with
  | none => rfl
  | some m =>
    simp only [maxUntilUpdate, omaxE]
    rcases lt_trichotomy m t with h | h | h
    · simp [h, max_eq_right h.le]
    · simp [h, max_self]
    · simp [not_lt.mpr h.le, max_eq_left h.le]

theorem omaxE_map_add (a b : Option Int) (w : Int) :
    (omaxE a b).map (fun u => u + w) = omaxE (a.map (fun u => u + w)) (b.map (fun u => u + w)) := by
  cases a <;> cases b <;> simp [omaxE, max_add_add_right]

/-- A position passes the validity and freshness filters of the news loop:
nonempty symbol, present open time, opened at most `recent` seconds ago. -/
def posEligible (now recent : Int) (p : NewsPosition) : Bool :=
  !(decide (p.symbol = "")) &&
    (match p.open_time with
     | none => false
     | some ot => decide (now - ot ≤ recent))

/-- The calendar events matching one position. -/
def posMatches (events : List NewsEvent) (win now : Int) (p : NewsPosition) : List NewsEvent :=
  find_events events (map_symbol_currencies p.symbol) now win

/-- A position is affected by the tick: eligible and with at least one
matching event. -/
def posAffected (events : List NewsEvent) (win now recent : Int) (p : NewsPosition) : Bool :=
  posEligible now recent p && !(posMatches events win now p).isEmpty

/-- All matches of the batch: the matching events of every eligible
position, in processing order. -/
def batchMatches (events : List NewsEvent) (win now recent : Int)
    (ps : List NewsPosition) : List NewsEvent :=
  (ps.filter (posEligible now recent)).flatMap (posMatches events win now)

theorem newsStep_foldl_spec (events : List NewsEvent) (win recent now : Int)
    (closeOk : Int → Bool) (ps : List NewsPosition) :
    ∀ acc : NewsAcc,
      ((ps.foldl (newsStep events win recent now closeOk) acc).affected
        = acc.affected
          ++ (ps.filter (posAffected events win now recent)).map (fun p => p.ticket))
      ∧ ((ps.foldl (newsStep events win recent now closeOk) acc).closed
        = acc.closed
          ++ ((ps.filter (posAffected events win now recent)).filter
              (fun p => closeOk p.ticket)).map (fun p => p.ticket))
      ∧ ((ps.foldl (newsStep events win recent now closeOk) acc).failed
        = acc.failed
          ++ ((ps.filter (posAffected events win now recent)).filter
              (fun p => !closeOk p.ticket)).map (fun p => p.ticket))
      ∧ ((ps.foldl (newsStep events win recent now closeOk) acc).trace
        = acc.trace
          ++ (ps.filter (posAffected events win now recent)).map
              (fun p => NewsAction.closeAttempt p.ticket))
      ∧ ((ps.foldl (newsStep events win recent now closeOk) acc).max_until
        = omaxE acc.max_until
            ((optTsMax (batchMatches events win now recent ps)).map
              (fun u => u + win * 60))) := by
  induction ps with
  | nil =>
    intro acc
    refine ⟨by simp, by simp, by simp, by simp, ?_⟩
    show acc.max_until = omaxE acc.max_until none
    cases acc.max_until <;> rfl
  | cons p ps ih =>
    intro acc
    rw [List.foldl_cons]
    by_cases hsym : p.symbol = ""
    · have hstep : newsStep events win recent now closeOk acc p = acc := by
        simp [newsStep, hsym]
      have hel : posEligible now recent p = false := by
        simp [posEligible, hsym]
      have haf : posAffected events win now recent p = false := by
        simp [posAffected, hel]
      have hbm : batchMatches events win now recent (p :: ps)
          = batchMatches events win now recent ps := by
        simp [batchMatches, List.filter_cons, hel]
      rw [hstep, hbm]
      simpa [List.filter_cons, haf] using ih acc
    · cases hot : p.open_time with
      | none =>
        have hstep : newsStep events win recent now closeOk acc p = acc := by
          simp [newsStep, hsym, hot]
        have hel : posEligible now recent p = false := by
          simp [posEligible, hsym, hot]
        have haf : posAffected events win now recent p = false := by
          simp [posAffected, hel]
        have hbm : batchMatches events win now recent (p :: ps)
            = batchMatches events win now recent ps := by
          simp [batchMatches, List.filter_cons, hel]
        rw [hstep, hbm]
        simpa [List.filter_cons, haf] using ih acc
      | some ot =>
        by_cases hrec : recent < now - ot
        · have hstep : newsStep events win recent now closeOk acc p = acc := by
            simp [newsStep, hsym, hot, hrec]
          have hel : posEligible now recent p = false := by
            simp [posEligible, hsym, hot, not_le.mpr hrec]
          have haf : posAffected events win now recent p = false := by
            simp [posAffected, hel]
          have hbm : batchMatches events win now recent (p :: ps)
              = batchMatches events win now recent ps := by
            simp [batchMatches, List.filter_cons, hel]
          rw [hstep, hbm]
          simpa [List.filter_cons, haf] using ih acc
        · have hel : posEligible now recent p = true := by
            simp [posEligible, hsym, hot, not_lt.mp hrec]
          by_cases hm : (posMatches events win now p).isEmpty = true
          · have hstep : newsStep events win recent now closeOk acc p = acc := by
              simp only [newsStep, hsym, hot]
              simp only [posMatches] at hm
              simp [hrec, hm]
            have haf : posAffected events win now recent p = false := by
              simp [posAffected, hel, hm]
            have hmp : posMatches events win now p = [] := by
              simpa [List.isEmpty_iff] using hm
            have hbm : batchMatches events win now recent (p :: ps)
                = batchMatches events win now recent ps := by
              simp [batchMatches, List.filter_cons, hel, hmp]
            rw [hstep, hbm]
            simpa [List.filter_cons, haf] using ih acc
          · -- the position is affected: full update
            have hm' : (posMatches events win now p).isEmpty = false := by
              simpa using hm
            have hmne : posMatches events win now p ≠ [] := by
              simpa [List.isEmpty_iff] using hm
            have haf : posAffected events win now recent p = true := by
              simp [posAffected, hel, hm']
            have hstep : newsStep events win recent now closeOk acc p =
                { closed := if closeOk p.ticket then acc.closed ++ [p.ticket] else acc.closed
                  failed := if closeOk p.ticket then acc.failed else acc.failed ++ [p.ticket]
                  affected := acc.affected ++ [p.ticket]
                  max_until := maxUntilUpdate acc.max_until
                    (tsMax (posMatches events win now p) + win * 60)
                  trace := acc.trace ++ [NewsAction.closeAttempt p.ticket] } := by
              simp only [newsStep, hsym, hot]
              simp only [posMatches] at hm'
              simp [hrec, hm', posMatches]
            have hbm : batchMatches events win now recent (p :: ps)
                = posMatches events win now p ++ batchMatches events win now recent ps := by
              simp [batchMatches, List.filter_cons, hel]
            obtain ⟨ihA, ihC, ihF, ihT, ihM⟩ :=
              ih (newsStep events win recent now closeOk acc p)
            refine ⟨?_, ?_, ?_, ?_, ?_⟩
            · rw [ihA, hstep]
              simp [List.filter_cons, haf]
            · rw [ihC, hstep]
              by_cases hok : closeOk p.ticket = true <;>
                simp [List.filter_cons, haf, hok]
            · rw [ihF, hstep]
              by_cases hok : closeOk p.ticket = true <;>
                simp [List.filter_cons, haf, hok]
            · rw [ihT, hstep]
              simp [List.filter_cons, haf]
            · rw [ihM, hstep]
              show omaxE (maxUntilUpdate acc.max_until _) _ = _
              rw [maxUntilUpdate_eq, omaxE_assoc, hbm, optTsMax_append, omaxE_map_add,
                optTsMax_eq_tsMax _ hmne]
              rfl

theorem batchMatches_ne_of_affected (events : List NewsEvent) (win now recent : Int)
    (ps : List NewsPosition)
    (h : ps.filter (posAffected events win now recent) ≠ []) :
    batchMatches events win now recent ps ≠ [] := by
  obtain ⟨p, hp⟩ := List.exists_mem_of_ne_nil _ h
  have hmem := List.mem_filter.mp hp
  have haff := hmem.2
  simp only [posAffected, Bool.and_eq_true] at haff
  obtain ⟨e, he⟩ := List.exists_mem_of_ne_nil (posMatches events win now p)
    (by simpa [List.isEmpty_iff] using haff.2)
  intro hb
  have hin : e ∈ batchMatches events win now recent ps := by
    simp only [batchMatches, List.mem_flatMap]
    exact ⟨p, List.mem_filter.mpr ⟨hmem.1, haff.1⟩, he⟩
  rw [hb] at hin
  simp at hin

/-- C2 counterexample: a v0.1 tick with two affected positions calls
`set_kill_until` twice, once per position, the first call landing between
the two close attempts — the switch is armed mid-batch, not once after the
whole batch. -/
theorem news_arm_once_counterexample :
    (enforce_news_window_v1 (.ok ⟨[⟨1, "EURUSD", some 990⟩, ⟨2, "USDJPY", some 995⟩]⟩)
      [⟨"USD", 1000⟩] 60 none 1000 (fun _ => true)).1.affected = [1, 2] ∧
    (enforce_news_window_v1 (.ok ⟨[⟨1, "EURUSD", some 990⟩, ⟨2, "USDJPY", some 995⟩]⟩)
      [⟨"USD", 1000⟩] 60 none 1000 (fun _ => true)).2
      = [NewsAction.closeAttempt 1, NewsAction.armKill 4600,
         NewsAction.closeAttempt 2, NewsAction.armKill 4600] ∧
    ((enforce_news_window_v1 (.ok ⟨[⟨1, "EURUSD", some 990⟩, ⟨2, "USDJPY", some 995⟩]⟩)
      [⟨"USD", 1000⟩] 60 none 1000 (fun _ => true)).2.filter
        (fun a => match a with
          | NewsAction.armKill _ => true
          | _ => false)).length = 2 := by
  decide

/-- C2 amended (v0.2 behavior): on every tick of the v0.2 enforcer with a
nonempty affected set, the action trace is a block of close attempts
followed by exactly one kill-switch arm as its last action, and the armed
timestamp is the maximum event timestamp over all matches of the batch plus
the window. -/
theorem news_v2_arm_aux (snap : NewsSnapshot) (events : List NewsEvent)
    (win recent now : Int) (closeOk : Int → Bool)
    (hne : (enforce_news_window_v2 (.ok snap) events win (some recent) now
      closeOk).1.affected ≠ []) :
    ∃ closes u,
      (enforce_news_window_v2 (.ok snap) events win (some recent) now closeOk).2
        = closes ++ [NewsAction.armKill u]
      ∧ (∀ a ∈ closes, ∃ t, a = NewsAction.closeAttempt t)
      ∧ some u = (optTsMax (batchMatches events win now recent snap.positions)).map
          (fun x => x + win * 60)
      ∧ (enforce_news_window_v2 (.ok snap) events win (some recent) now
          closeOk).1.kill_switch_until = some u := by
  obtain ⟨hA, hC, hF, hT, hM⟩ := newsStep_foldl_spec events win recent now closeOk
    snap.positions ⟨[], [], [], none, []⟩
  simp only [List.nil_append] at hA hC hF hT
  rw [omaxE_none_left] at hM
  have hunf : enforce_news_window_v2 (.ok snap) events win (some recent) now closeOk
      = (match (snap.positions.foldl (newsStep events win recent now closeOk)
            ⟨[], [], [], none, []⟩).max_until with
         | some mu =>
             if (snap.positions.foldl (newsStep events win recent now closeOk)
                 ⟨[], [], [], none, []⟩).affected.isEmpty then
               ((⟨(snap.positions.foldl (newsStep events win recent now closeOk)
                   ⟨[], [], [], none, []⟩).affected,
                 (snap.positions.foldl (newsStep events win recent now closeOk)
                   ⟨[], [], [], none, []⟩).closed,
                 (snap.positions.foldl (newsStep events win recent now closeOk)
                   ⟨[], [], [], none, []⟩).failed, none⟩ : NewsReport),
                 (snap.positions.foldl (newsStep events win recent now closeOk)
                   ⟨[], [], [], none, []⟩).trace)
             else
               (⟨(snap.positions.foldl (newsStep events win recent now closeOk)
                   ⟨[], [], [], none, []⟩).affected,
                 (snap.positions.foldl (newsStep events win recent now closeOk)
                   ⟨[], [], [], none, []⟩).closed,
                 (snap.positions.foldl (newsStep events win recent now closeOk)
                   ⟨[], [], [], none, []⟩).failed, some mu⟩,
                 (snap.positions.foldl (newsStep events win recent now closeOk)
                   ⟨[], [], [], none, []⟩).trace ++ [NewsAction.armKill mu])
         | none =>
             (⟨(snap.positions.foldl (newsStep events win recent now closeOk)
                 ⟨[], [], [], none, []⟩).affected,
               (snap.positions.foldl (newsStep events win recent now closeOk)
                 ⟨[], [], [], none, []⟩).closed,
               (snap.positions.foldl (newsStep events win recent now closeOk)
                 ⟨[], [], [], none, []⟩).failed, none⟩,
               (snap.positions.foldl (newsStep events win recent now closeOk)
                 ⟨[], [], [], none, []⟩).trace)) := rfl
  rcases hMU : (snap.positions.foldl (newsStep events win recent now closeOk)
      ⟨[], [], [], none, []⟩).max_until with _ | mu
  · -- impossible: a nonempty affected set forces a combined timestamp
    exfalso
    rw [hunf] at hne
    simp only [hMU] at hne
    have haffne : (snap.positions.filter (posAffected events win now recent)) ≠ [] := by
      intro hnil
      apply hne
      show (snap.positions.foldl (newsStep events win recent now closeOk)
        ⟨[], [], [], none, []⟩).affected = []
      rw [hA, hnil]
      simp
    have hbne := batchMatches_ne_of_affected events win now recent snap.positions haffne
    rw [optTsMax_eq_tsMax _ hbne] at hM
    rw [hMU] at hM
    simp at hM
  · have haccne : (snap.positions.foldl (newsStep events win recent now closeOk)
        ⟨[], [], [], none, []⟩).affected ≠ [] := by
      rw [hunf] at hne
      simp only [hMU] at hne
      by_cases hae : (snap.positions.foldl (newsStep events win recent now closeOk)
          ⟨[], [], [], none, []⟩).affected.isEmpty = true
      · simp only [hae, if_true] at hne
        simpa using hne
      · simp only [hae, Bool.false_eq_true, if_false] at hne
        simpa using hne
    have hae : (snap.positions.foldl (newsStep events win recent now closeOk)
        ⟨[], [], [], none, []⟩).affected.isEmpty = false := by
      cases hx : (snap.positions.foldl (newsStep events win recent now closeOk)
          ⟨[], [], [], none, []⟩).affected with
      | nil => exact absurd hx haccne
      | cons a l => rfl
    refine ⟨(snap.positions.foldl (newsStep events win recent now closeOk)
        ⟨[], [], [], none, []⟩).trace, mu, ?_, ?_, ?_, ?_⟩
    · rw [hunf]
      simp only [hMU, hae, Bool.false_eq_true, if_false]
    · rw [hT]
      intro a ha
      rcases List.mem_map.mp ha with ⟨p, -, hp⟩
      exact ⟨p.ticket, hp.symm⟩
    · rw [← hM, hMU]
    · rw [hunf]
      simp only [hMU, hae, Bool.false_eq_true, if_false]

theorem news_v2_single_arm_after_batch (snap : NewsSnapshot) (events : List NewsEvent)
    (win : Int) (recentOpt : Option Int) (now : Int) (closeOk : Int → Bool)
    (hne : (enforce_news_window_v2 (.ok snap) events win recentOpt now closeOk).1.affected
      ≠ []) :
    ∃ closes u,
      (enforce_news_window_v2 (.ok snap) events win recentOpt now closeOk).2
        = closes ++ [NewsAction.armKill u]
      ∧ (∀ a ∈ closes, ∃ t, a = NewsAction.closeAttempt t)
      ∧ some u = (optTsMax (batchMatches events win now
          (match recentOpt with
            | none => win * 60
            | some r => r) snap.positions)).map (fun x => x + win * 60)
      ∧ (enforce_news_window_v2 (.ok snap) events win recentOpt now closeOk).1.kill_switch_until
          = some u := by
  rcases recentOpt with _ | r
  · exact news_v2_arm_aux snap events win (win * 60) now closeOk hne
  · exact news_v2_arm_aux snap events win r now closeOk hne

theorem news_v2_single_arm_after_batch_witness :
    ((enforce_news_window_v2 (.ok ⟨[⟨1, "EURUSD", some 990⟩, ⟨2, "USDJPY", some 995⟩]⟩)
      [⟨"USD", 1000⟩] 60 none 1000 (fun _ => true)).1.affected ≠ []) ∧
    (∃ closes u,
      (enforce_news_window_v2 (.ok ⟨[⟨1, "EURUSD", some 990⟩, ⟨2, "USDJPY", some 995⟩]⟩)
        [⟨"USD", 1000⟩] 60 none 1000 (fun _ => true)).2
        = closes ++ [NewsAction.armKill u]
      ∧ (∀ a ∈ closes, ∃ t, a = NewsAction.closeAttempt t)
      ∧ some u = (optTsMax (batchMatches [⟨"USD", 1000⟩] 60 1000
          (match (none : Option Int) with
            | none => (60 : Int) * 60
            | some r => r)
          [⟨1, "EURUSD", some 990⟩, ⟨2, "USDJPY", some 995⟩])).map (fun x => x + 60 * 60)
      ∧ (enforce_news_window_v2 (.ok ⟨[⟨1, "EURUSD", some 990⟩, ⟨2, "USDJPY", some 995⟩]⟩)
          [⟨"USD", 1000⟩] 60 none 1000 (fun _ => true)).1.kill_switch_until = some u) :=
  ⟨by decide,
    news_v2_single_arm_after_batch ⟨[⟨1, "EURUSD", some 990⟩, ⟨2, "USDJPY", some 995⟩]⟩
      [⟨"USD", 1000⟩] 60 none 1000 (fun _ => true) (by decide)⟩

theorem v2_match_proj (acc : NewsAcc) :
    ((match acc.max_until with
      | some mu =>
          if acc.affected.isEmpty then
            ((⟨acc.affected, acc.closed, acc.failed, none⟩ : NewsReport), acc.trace)
          else
            (⟨acc.affected, acc.closed, acc.failed, some mu⟩,
              acc.trace ++ [NewsAction.armKill mu])
      | none => (⟨acc.affected, acc.closed, acc.failed, none⟩,
          acc.trace)) : NewsReport × List NewsAction).1.affected = acc.affected
    ∧ ((match acc.max_until with
      | some mu =>
          if acc.affected.isEmpty then
            ((⟨acc.affected, acc.closed, acc.failed, none⟩ : NewsReport), acc.trace)
          else
            (⟨acc.affected, acc.closed, acc.failed, some mu⟩,
              acc.trace ++ [NewsAction.armKill mu])
      | none => (⟨acc.affected, acc.closed, acc.failed, none⟩,
          acc.trace)) : NewsReport × List NewsAction).1.closed = acc.closed
    ∧ ((match acc.max_until with
      | some mu =>
          if acc.affected.isEmpty then
            ((⟨acc.affected, acc.closed, acc.failed, none⟩ : NewsReport), acc.trace)
          else
            (⟨acc.affected, acc.closed, acc.failed, some mu⟩,
              acc.trace ++ [NewsAction.armKill mu])
      | none => (⟨acc.affected, acc.closed, acc.failed, none⟩,
          acc.trace)) : NewsReport × List NewsAction).1.failed = acc.failed := by
  rcases acc.max_until with _ | mu
  · exact ⟨rfl, rfl, rfl⟩
  · by_cases h : acc.affected.isEmpty = true <;> simp [h]

theorem posEligible_spec (now recent : Int) (p : NewsPosition)
    (h : posEligible now recent p = true) :
    ∃ ot, p.open_time = some ot ∧ now - ot ≤ recent := by
  simp only [posEligible, Bool.and_eq_true] at h
  rcases h with ⟨-, h2⟩
  cases hot : p.open_time with
  | none =>
    rw [hot] at h2
    simp at h2
  | some ot =>
    rw [hot] at h2
    exact ⟨ot, rfl, by simpa using h2⟩

/-- C9: when `recent_s` is not supplied, both news enforcers default it to
`window_min * 60` seconds, and (v0.2) every ticket that appears in the
report — affected, closed or failed — comes from a position opened at most
`window_min * 60` seconds ago; with the default 60-minute window only
positions opened within the last hour are ever considered. -/
theorem news_recent_default (snapE : Except Unit NewsSnapshot) (events : List NewsEvent)
    (win now : Int) (closeOk : Int → Bool) :
    enforce_news_window_v2 snapE events win none now closeOk
      = enforce_news_window_v2 snapE events win (some (win * 60)) now closeOk ∧
    enforce_news_window_v1 snapE events win none now closeOk
      = enforce_news_window_v1 snapE events win (some (win * 60)) now closeOk ∧
    (∀ snap, snapE = .ok snap →
      ∀ t, (t ∈ (enforce_news_window_v2 snapE events win none now closeOk).1.affected
          ∨ t ∈ (enforce_news_window_v2 snapE events win none now closeOk).1.closed
          ∨ t ∈ (enforce_news_window_v2 snapE events win none now closeOk).1.failed) →
        ∃ p ∈ snap.positions, p.ticket = t
          ∧ ∃ ot, p.open_time = some ot ∧ now - ot ≤ win * 60) := by
  refine ⟨rfl, rfl, ?_⟩
  intro snap hsnap t ht
  subst hsnap
  obtain ⟨hA, hC, hF, hT, hM⟩ := newsStep_foldl_spec events win (win * 60) now closeOk
    snap.positions ⟨[], [], [], none, []⟩
  simp only [List.nil_append] at hA hC hF
  obtain ⟨hPA, hPC, hPF⟩ := v2_match_proj (snap.positions.foldl
    (newsStep events win (win * 60) now closeOk) ⟨[], [], [], none, []⟩)
  have hmem : ∃ p, p ∈ snap.positions.filter (posAffected events win now (win * 60))
      ∧ p.ticket = t := by
    rcases ht with ht | ht | ht
    · have : t ∈ (snap.positions.foldl (newsStep events win (win * 60) now closeOk)
          ⟨[], [], [], none, []⟩).affected := by
        rw [← hPA]
        exact ht
      rw [hA] at this
      rcases List.mem_map.mp this with ⟨p, hp, hpt⟩
      exact ⟨p, hp, hpt⟩
    · have : t ∈ (snap.positions.foldl (newsStep events win (win * 60) now closeOk)
          ⟨[], [], [], none, []⟩).closed := by
        rw [← hPC]
        exact ht
      rw [hC] at this
      rcases List.mem_map.mp this with ⟨p, hp, hpt⟩
      exact ⟨p, (List.mem_filter.mp hp).1, hpt⟩
    · have : t ∈ (snap.positions.foldl (newsStep events win (win * 60) now closeOk)
          ⟨[], [], [], none, []⟩).failed := by
        rw [← hPF]
        exact ht
      rw [hF] at this
      rcases List.mem_map.mp this with ⟨p, hp, hpt⟩
      exact ⟨p, (List.mem_filter.mp hp).1, hpt⟩
  rcases hmem with ⟨p, hp, hpt⟩
  have hpm := List.mem_filter.mp hp
  have hel : posEligible now (win * 60) p = true := by
    have := hpm.2
    simp only [posAffected, Bool.and_eq_true] at this
    exact this.1
  obtain ⟨ot, hot, hle⟩ := posEligible_spec now (win * 60) p hel
  exact ⟨p, hpm.1, hpt, ot, hot, hle⟩

theorem news_recent_default_witness :
    (enforce_news_window_v2 (.ok ⟨[⟨1, "EURUSD", some 990⟩]⟩) [⟨"USD", 1000⟩] 60 none 1000
        (fun _ => true)
      = enforce_news_window_v2 (.ok ⟨[⟨1, "EURUSD", some 990⟩]⟩) [⟨"USD", 1000⟩] 60
        (some (60 * 60)) 1000 (fun _ => true)) ∧
    (enforce_news_window_v1 (.ok ⟨[⟨1, "EURUSD", some 990⟩]⟩) [⟨"USD", 1000⟩] 60 none 1000
        (fun _ => true)
      = enforce_news_window_v1 (.ok ⟨[⟨1, "EURUSD", some 990⟩]⟩) [⟨"USD", 1000⟩] 60
        (some (60 * 60)) 1000 (fun _ => true)) ∧
    (∀ snap, (.ok ⟨[⟨1, "EURUSD", some 990⟩]⟩ : Except Unit NewsSnapshot) = .ok snap →
      ∀ t, (t ∈ (enforce_news_window_v2 (.ok ⟨[⟨1, "EURUSD", some 990⟩]⟩) [⟨"USD", 1000⟩]
            60 none 1000 (fun _ => true)).1.affected
          ∨ t ∈ (enforce_news_window_v2 (.ok ⟨[⟨1, "EURUSD", some 990⟩]⟩) [⟨"USD", 1000⟩]
            60 none 1000 (fun _ => true)).1.closed
          ∨ t ∈ (enforce_news_window_v2 (.ok ⟨[⟨1, "EURUSD", some 990⟩]⟩) [⟨"USD", 1000⟩]
            60 none 1000 (fun _ => true)).1.failed) →
        ∃ p ∈ snap.positions, p.ticket = t
          ∧ ∃ ot, p.open_time = some ot ∧ 1000 - ot ≤ 60 * 60) :=
  news_recent_default (.ok ⟨[⟨1, "EURUSD", some 990⟩]⟩) [⟨"USD", 1000⟩] 60 1000
    (fun _ => true)

/-- C4 counterexample: a failing snapshot makes `enforce_aggregate_risk`
itself raise — the exception propagates out of the function instead of the
tick being skipped (there is no handler around line 67, and the
`limits_watch.py` loop has none either). -/
theorem snapshot_failure_counterexample :
    enforce_aggregate_risk_checked (.error ()) ⟨some [1], 0, none, false⟩ ⟨none⟩ 0 5 3 60
      (fun _ => true) false = .error () := rfl

/-- C4 amended: a failing snapshot is caught only by the news enforcers,
which skip the tick returning the empty report with no close or arm
actions; `enforce_aggregate_risk` propagates the exception (with no state
change, since nothing runs before the snapshot call). -/
theorem snapshot_failure_paths (st0 : LimitsState) (ks : KillSwitch) (now : Int)
    (thr : Rat) (N D : Nat) (closeOk : Nat → Bool) (armFails : Bool)
    (events : List NewsEvent) (win : Int) (recentOpt : Option Int) (nowN : Int)
    (closeOkN : Int → Bool) :
    enforce_aggregate_risk_checked (.error ()) st0 ks now thr N D closeOk armFails
      = .error () ∧
    enforce_news_window_v2 (.error ()) events win recentOpt nowN closeOkN
      = (⟨[], [], [], none⟩, []) ∧
    enforce_news_window_v1 (.error ()) events win recentOpt nowN closeOkN
      = (⟨[], [], [], none⟩, []) :=
  ⟨rfl, rfl, rfl⟩

/-- C7 counterexample: `_save_state` writes the state file in place with no
temp file and no rename; a crash between the truncating open and the write
leaves an empty file — neither the prior contents nor the new ones. -/
theorem save_state_counterexample :
    followsTempThenRename (save_state_ops "new") STATE_FILE = false ∧
    crashAfter 1 (save_state_ops "new") (fun _ => "old") STATE_FILE = "" ∧
    ("" : String) ≠ "old" ∧ ("" : String) ≠ "new" := by
  decide

/-- C7 amended: every save truncates and rewrites the state file in place
(no write-to-temp-then-rename); a completed save leaves the new payload,
but a crash right after the truncating open leaves an empty file, losing
the prior state. -/
theorem save_state_in_place (payload prior : String) :
    followsTempThenRename (save_state_ops payload) STATE_FILE = false ∧
    crashAfter 1 (save_state_ops payload) (fun _ => prior) STATE_FILE = "" ∧
    crashAfter 2 (save_state_ops payload) (fun _ => prior) STATE_FILE = payload :=
  ⟨rfl, rfl, rfl⟩
